import Mathlib

/-!
Verification of the TidyImport cleaning engine (`src/lib/cleaningEngine.ts`).

Strings are modelled as lists of characters (`Str`); the JavaScript string
methods used by the engine are modelled as follows:

* `trim` / the regex class `\s`  → `Char.isWhitespace` (space, tab, CR, LF);
* `toLowerCase` / `toUpperCase`  → `Char.toLower` / `Char.toUpper`
  (the ASCII case mapping, which is what the engine's data exercises);
* `replace(/\D/g, '')`           → `List.filter Char.isDigit`;
* `split(sep)`                   → `List.splitOnP`;
* `join(sep)`                    → `joinSep`;
* `includes(sub)`                → `isSubstrOf`.

JavaScript objects `Record<string, string>` are modelled as ordered
association lists (`Row`); object spread update is `setVal`, property read
with a `''` default is `getVal`.
-/

abbrev Str := List Char

def strL (s : String) : Str := s.data

def lowerStr (s : Str) : Str := s.map Char.toLower

-- `s.trim()`: drop whitespace from both ends.
def trimStr (s : Str) : Str := (s.dropWhile Char.isWhitespace).rdropWhile Char.isWhitespace

-- `Array.prototype.join(sep)` for a list of strings.
def joinSep (sep : Str) : List Str → Str
  | [] => []
  | [w] => w
  | w :: w' :: ws => w ++ sep ++ joinSep sep (w' :: ws)

-- `String.prototype.includes`: `isSubstrOf n h` iff `n` occurs contiguously in `h`.
def isSubstrOf (n : Str) : Str → Bool
  | [] => n.isEmpty
  | c :: t => List.isPrefixOf n (c :: t) || isSubstrOf n t

/-! ### Value cleaners (cleaningEngine.ts lines 512-630) -/

-- `formatPhoneNumber` (line 546): `if (!phone) return ''; return phone.replace(/\D/g, '')`.
def formatPhoneNumber (phone : Str) : Str :=
  if phone = [] then [] else phone.filter Char.isDigit

-- `cleanPhone` (line 564): identical body, with an extra (vacuous here) typeof guard.
def cleanPhone (phone : Str) : Str :=
  if phone = [] then [] else phone.filter Char.isDigit

-- `cleanEmail` (line 570): `email.toLowerCase().replace(/\s/g, '')`.
def cleanEmail (email : Str) : Str :=
  if email = [] then [] else (email.map Char.toLower).filter (fun c => !c.isWhitespace)

-- `word.charAt(0).toUpperCase() + word.slice(1)` (line 559).
def capitalizeWord : Str → Str
  | [] => []
  | c :: cs => Char.toUpper c :: cs

-- `toProperCase` (line 554): lowercase, split on single spaces, capitalize each word, rejoin.
def toProperCase (s : Str) : Str :=
  if s = [] then []
  else joinSep [' '] (((s.map Char.toLower).splitOnP (· == ' ')).map capitalizeWord)

-- `VALID_STATUSES` (line 238).
def VALID_STATUSES : List Str := [strL "Lead", strL "Customer", strL "VIP"]

-- `cleanStatus` (line 576): trim, case-insensitive match against the valid set,
-- return the canonical casing on a hit, the trimmed original otherwise.
def cleanStatus (status : Str) : Str :=
  if status = [] then []
  else
    let normalized := lowerStr (trimStr status)
    match VALID_STATUSES.find? (fun v => lowerStr v = normalized) with
    | some v => v
    | none => trimStr status

-- the separator class `[,;|]` of `cleanTags` (line 597).
def isTagSep (c : Char) : Bool := c == ',' || c == ';' || c == '|'

-- `cleanTags` (line 592): split on `, ; |`, trim pieces, drop empties, join with `|`.
def cleanTags (tags : Str) : Str :=
  if tags = [] then []
  else joinSep [('|' : Char)] (((tags.splitOnP isTagSep).map trimStr).filter (· ≠ []))

/-! ### Time-zone tables and cleaner (cleaningEngine.ts lines 241-630) -/

-- `VALID_TIME_ZONES` (lines 241-390): the 146 canonical zone labels.
def VALID_TIME_ZONES : List Str := [
  strL "Abu Dhabi",
  strL "Adelaide",
  strL "Alaska",
  strL "Almaty",
  strL "American Samoa",
  strL "Amsterdam",
  strL "Arizona",
  strL "Astana",
  strL "Athens",
  strL "Atlantic Time (Canada)",
  strL "Auckland",
  strL "Azores",
  strL "Baghdad",
  strL "Baku",
  strL "Bangkok",
  strL "Beijing",
  strL "Belgrade",
  strL "Berlin",
  strL "Bern",
  strL "Bogota",
  strL "Brasilia",
  strL "Bratislava",
  strL "Brisbane",
  strL "Brussels",
  strL "Bucharest",
  strL "Budapest",
  strL "Buenos Aires",
  strL "Cairo",
  strL "Canberra",
  strL "Cape Verde Is.",
  strL "Caracas",
  strL "Casablanca",
  strL "Central America",
  strL "Central Time (US & Canada)",
  strL "Chatham Is.",
  strL "Chennai",
  strL "Chihuahua",
  strL "Chongqing",
  strL "Copenhagen",
  strL "Darwin",
  strL "Dhaka",
  strL "Eastern Time (US & Canada)",
  strL "Edinburgh",
  strL "Ekaterinburg",
  strL "Fiji",
  strL "Georgetown",
  strL "Greenland",
  strL "Guadalajara",
  strL "Guam",
  strL "Hanoi",
  strL "Harare",
  strL "Hawaii",
  strL "Helsinki",
  strL "Hobart",
  strL "Hong Kong",
  strL "Indiana (East)",
  strL "International Date Line West",
  strL "Irkutsk",
  strL "Islamabad",
  strL "Istanbul",
  strL "Jakarta",
  strL "Jerusalem",
  strL "Kabul",
  strL "Kaliningrad",
  strL "Kamchatka",
  strL "Karachi",
  strL "Kathmandu",
  strL "Kolkata",
  strL "Krasnoyarsk",
  strL "Kuala Lumpur",
  strL "Kuwait",
  strL "Kyiv",
  strL "La Paz",
  strL "Lima",
  strL "Lisbon",
  strL "Ljubljana",
  strL "London",
  strL "Madrid",
  strL "Magadan",
  strL "Marshall Is.",
  strL "Mazatlan",
  strL "Melbourne",
  strL "Mexico City",
  strL "Mid-Atlantic",
  strL "Midway Island",
  strL "Minsk",
  strL "Monrovia",
  strL "Monterrey",
  strL "Montevideo",
  strL "Moscow",
  strL "Mountain Time (US & Canada)",
  strL "Mumbai",
  strL "Muscat",
  strL "Nairobi",
  strL "New Caledonia",
  strL "New Delhi",
  strL "Newfoundland",
  strL "Novosibirsk",
  strL "Nuku\x27alofa",
  strL "Osaka",
  strL "Pacific Time (US & Canada)",
  strL "Paris",
  strL "Perth",
  strL "Port Moresby",
  strL "Prague",
  strL "Pretoria",
  strL "Quito",
  strL "Rangoon",
  strL "Riga",
  strL "Riyadh",
  strL "Rome",
  strL "Samara",
  strL "Samoa",
  strL "Santiago",
  strL "Sapporo",
  strL "Sarajevo",
  strL "Saskatchewan",
  strL "Seoul",
  strL "Singapore",
  strL "Skopje",
  strL "Sofia",
  strL "Solomon Is.",
  strL "Srednekolymsk",
  strL "Sri Jayawardenepura",
  strL "St. Petersburg",
  strL "Stockholm",
  strL "Sydney",
  strL "Taipei",
  strL "Tallinn",
  strL "Tashkent",
  strL "Tbilisi",
  strL "Tehran",
  strL "Tijuana",
  strL "Tokelau Is.",
  strL "Tokyo",
  strL "Ulaanbaatar",
  strL "Urumqi",
  strL "UTC",
  strL "Vienna",
  strL "Vilnius",
  strL "Vladivostok",
  strL "Volgograd",
  strL "Warsaw",
  strL "Wellington",
  strL "West Central Africa",
  strL "Yakutsk",
  strL "Yerevan",
  strL "Zagreb"]

-- `TIMEZONE_ALIASES` (lines 393-509), in object-literal insertion order
-- (the order `Object.entries` iterates during the substring scan).
def TIMEZONE_ALIASES : List (Str × Str) := [
  (strL "est", strL "Eastern Time (US & Canada)"),
  (strL "edt", strL "Eastern Time (US & Canada)"),
  (strL "eastern", strL "Eastern Time (US & Canada)"),
  (strL "eastern time", strL "Eastern Time (US & Canada)"),
  (strL "eastern standard time", strL "Eastern Time (US & Canada)"),
  (strL "eastern daylight time", strL "Eastern Time (US & Canada)"),
  (strL "et", strL "Eastern Time (US & Canada)"),
  (strL "america/new_york", strL "Eastern Time (US & Canada)"),
  (strL "new york", strL "Eastern Time (US & Canada)"),
  (strL "us/eastern", strL "Eastern Time (US & Canada)"),
  (strL "cst", strL "Central Time (US & Canada)"),
  (strL "cdt", strL "Central Time (US & Canada)"),
  (strL "central", strL "Central Time (US & Canada)"),
  (strL "central time", strL "Central Time (US & Canada)"),
  (strL "central standard time", strL "Central Time (US & Canada)"),
  (strL "central daylight time", strL "Central Time (US & Canada)"),
  (strL "ct", strL "Central Time (US & Canada)"),
  (strL "america/chicago", strL "Central Time (US & Canada)"),
  (strL "chicago", strL "Central Time (US & Canada)"),
  (strL "us/central", strL "Central Time (US & Canada)"),
  (strL "mst", strL "Mountain Time (US & Canada)"),
  (strL "mdt", strL "Mountain Time (US & Canada)"),
  (strL "mountain", strL "Mountain Time (US & Canada)"),
  (strL "mountain time", strL "Mountain Time (US & Canada)"),
  (strL "mountain standard time", strL "Mountain Time (US & Canada)"),
  (strL "mountain daylight time", strL "Mountain Time (US & Canada)"),
  (strL "mt", strL "Mountain Time (US & Canada)"),
  (strL "america/denver", strL "Mountain Time (US & Canada)"),
  (strL "denver", strL "Mountain Time (US & Canada)"),
  (strL "us/mountain", strL "Mountain Time (US & Canada)"),
  (strL "pst", strL "Pacific Time (US & Canada)"),
  (strL "pdt", strL "Pacific Time (US & Canada)"),
  (strL "pacific", strL "Pacific Time (US & Canada)"),
  (strL "pacific time", strL "Pacific Time (US & Canada)"),
  (strL "pacific standard time", strL "Pacific Time (US & Canada)"),
  (strL "pacific daylight time", strL "Pacific Time (US & Canada)"),
  (strL "pt", strL "Pacific Time (US & Canada)"),
  (strL "america/los_angeles", strL "Pacific Time (US & Canada)"),
  (strL "los angeles", strL "Pacific Time (US & Canada)"),
  (strL "la", strL "Pacific Time (US & Canada)"),
  (strL "us/pacific", strL "Pacific Time (US & Canada)"),
  (strL "akst", strL "Alaska"),
  (strL "akdt", strL "Alaska"),
  (strL "alaska time", strL "Alaska"),
  (strL "america/anchorage", strL "Alaska"),
  (strL "us/alaska", strL "Alaska"),
  (strL "hst", strL "Hawaii"),
  (strL "hast", strL "Hawaii"),
  (strL "hawaiian", strL "Hawaii"),
  (strL "hawaii time", strL "Hawaii"),
  (strL "pacific/honolulu", strL "Hawaii"),
  (strL "us/hawaii", strL "Hawaii"),
  (strL "america/phoenix", strL "Arizona"),
  (strL "phoenix", strL "Arizona"),
  (strL "us/arizona", strL "Arizona"),
  (strL "atlantic", strL "Atlantic Time (Canada)"),
  (strL "ast", strL "Atlantic Time (Canada)"),
  (strL "adt", strL "Atlantic Time (Canada)"),
  (strL "america/halifax", strL "Atlantic Time (Canada)"),
  (strL "canada/atlantic", strL "Atlantic Time (Canada)"),
  (strL "indiana", strL "Indiana (East)"),
  (strL "america/indiana", strL "Indiana (East)"),
  (strL "gmt", strL "London"),
  (strL "bst", strL "London"),
  (strL "uk", strL "London"),
  (strL "britain", strL "London"),
  (strL "europe/london", strL "London"),
  (strL "greenwich", strL "London"),
  (strL "cet", strL "Paris"),
  (strL "cest", strL "Paris"),
  (strL "france", strL "Paris"),
  (strL "europe/paris", strL "Paris"),
  (strL "germany", strL "Berlin"),
  (strL "europe/berlin", strL "Berlin"),
  (strL "jst", strL "Tokyo"),
  (strL "japan", strL "Tokyo"),
  (strL "asia/tokyo", strL "Tokyo"),
  (strL "china", strL "Beijing"),
  (strL "shanghai", strL "Beijing"),
  (strL "asia/shanghai", strL "Beijing"),
  (strL "india", strL "New Delhi"),
  (strL "ist", strL "New Delhi"),
  (strL "asia/kolkata", strL "Kolkata"),
  (strL "aest", strL "Sydney"),
  (strL "aedt", strL "Sydney"),
  (strL "australia", strL "Sydney"),
  (strL "australia/sydney", strL "Sydney")]

-- `cleanTimeZone` (line 604): exact case-insensitive canonical match, then exact
-- alias-key match, then first bidirectional substring alias match, else the
-- trimmed original.
def cleanTimeZone (timeZone : Str) : Str :=
  if timeZone = [] then []
  else
    let normalized := trimStr timeZone
    let lowerNormalized := lowerStr normalized
    match VALID_TIME_ZONES.find? (fun v => lowerStr v = lowerNormalized) with
    | some v => v
    | none =>
      match TIMEZONE_ALIASES.find? (fun p => p.1 = lowerNormalized) with
      | some p => p.2
      | none =>
        match TIMEZONE_ALIASES.find?
            (fun p => isSubstrOf p.1 lowerNormalized || isSubstrOf lowerNormalized p.1) with
        | some p => p.2
        | none => normalized

/-! ### Birthday parsing and rendering (cleaningEngine.ts lines 633-763)

The three anchored regexes of `parseBirthday` are modelled by explicit
maximal-digit-run scanners.  In each regex every quantified group is
delimited by characters outside its own class (digits against `/ -`,
letters against whitespace), so a regex group matches exactly a maximal
run and the regex succeeds iff the run lengths satisfy the stated bounds;
no backtracking can produce any other division of the input. -/

-- `MONTH_NAMES` (line 637), keys in object order.
def MONTH_NAMES : List (Str × Str) := [
  (strL "jan", strL "01"), (strL "january", strL "01"),
  (strL "feb", strL "02"), (strL "february", strL "02"),
  (strL "mar", strL "03"), (strL "march", strL "03"),
  (strL "apr", strL "04"), (strL "april", strL "04"),
  (strL "may", strL "05"),
  (strL "jun", strL "06"), (strL "june", strL "06"),
  (strL "jul", strL "07"), (strL "july", strL "07"),
  (strL "aug", strL "08"), (strL "august", strL "08"),
  (strL "sep", strL "09"), (strL "sept", strL "09"), (strL "september", strL "09"),
  (strL "oct", strL "10"), (strL "october", strL "10"),
  (strL "nov", strL "11"), (strL "november", strL "11"),
  (strL "dec", strL "12"), (strL "december", strL "12")]

-- the separator class `[\/\-]`.
def isDateSep (c : Char) : Bool := c == '/' || c == '-'

-- `^(\d{4})[\/\-](\d{1,2})[\/\-](\d{1,2})$` : returns (year, month, day).
def matchISO (s : Str) : Option (Str × Str × Str) :=
  let y := s.takeWhile Char.isDigit
  match s.dropWhile Char.isDigit with
  | c1 :: r1 =>
    if y.length = 4 && isDateSep c1 then
      let m := r1.takeWhile Char.isDigit
      match r1.dropWhile Char.isDigit with
      | c2 :: r2 =>
        if (1 ≤ m.length && m.length ≤ 2) && isDateSep c2 then
          let d := r2.takeWhile Char.isDigit
          match r2.dropWhile Char.isDigit with
          | [] => if 1 ≤ d.length && d.length ≤ 2 then some (y, m, d) else none
          | _ :: _ => none
        else none
      | [] => none
    else none
  | [] => none

-- `^(\d{1,2})[\/\-](\d{1,2})[\/\-](\d{4})$` : returns (first, second, year).
def matchSlash (s : Str) : Option (Str × Str × Str) :=
  let a := s.takeWhile Char.isDigit
  match s.dropWhile Char.isDigit with
  | c1 :: r1 =>
    if (1 ≤ a.length && a.length ≤ 2) && isDateSep c1 then
      let b := r1.takeWhile Char.isDigit
      match r1.dropWhile Char.isDigit with
      | c2 :: r2 =>
        if (1 ≤ b.length && b.length ≤ 2) && isDateSep c2 then
          let y := r2.takeWhile Char.isDigit
          match r2.dropWhile Char.isDigit with
          | [] => if y.length = 4 then some (a, b, y) else none
          | _ :: _ => none
        else none
      | [] => none
    else none
  | [] => none

-- `^([a-zA-Z]+)\s+(\d{1,2}),?\s+(\d{4})$` : returns (month text, day, year).
def matchText1 (s : Str) : Option (Str × Str × Str) :=
  let mt := s.takeWhile Char.isAlpha
  let r0 := s.dropWhile Char.isAlpha
  let w1 := r0.takeWhile Char.isWhitespace
  let r1 := r0.dropWhile Char.isWhitespace
  let d := r1.takeWhile Char.isDigit
  let r2 := r1.dropWhile Char.isDigit
  let r3 := match r2 with
    | ',' :: rest => rest
    | rest => rest
  let w2 := r3.takeWhile Char.isWhitespace
  let r4 := r3.dropWhile Char.isWhitespace
  let y := r4.takeWhile Char.isDigit
  match r4.dropWhile Char.isDigit with
  | [] =>
    if (1 ≤ mt.length && 1 ≤ w1.length) && ((1 ≤ d.length && d.length ≤ 2) &&
        (1 ≤ w2.length && y.length = 4)) then
      some (mt, d, y)
    else none
  | _ :: _ => none

-- `^(\d{1,2})\s+([a-zA-Z]+),?\s+(\d{4})$` : returns (day, month text, year).
def matchText2 (s : Str) : Option (Str × Str × Str) :=
  let d := s.takeWhile Char.isDigit
  let r0 := s.dropWhile Char.isDigit
  let w1 := r0.takeWhile Char.isWhitespace
  let r1 := r0.dropWhile Char.isWhitespace
  let mt := r1.takeWhile Char.isAlpha
  let r2 := r1.dropWhile Char.isAlpha
  let r3 := match r2 with
    | ',' :: rest => rest
    | rest => rest
  let w2 := r3.takeWhile Char.isWhitespace
  let r4 := r3.dropWhile Char.isWhitespace
  let y := r4.takeWhile Char.isDigit
  match r4.dropWhile Char.isDigit with
  | [] =>
    if ((1 ≤ d.length && d.length ≤ 2) && 1 ≤ w1.length) && (1 ≤ mt.length &&
        (1 ≤ w2.length && y.length = 4)) then
      some (d, mt, y)
    else none
  | _ :: _ => none

-- `String(n).padStart(2, '0')`.
def pad2 (s : Str) : Str := List.replicate (2 - s.length) '0' ++ s

-- `parseInt(s, 10)` on an all-digit string.
def digitsToNat (s : Str) : Nat := s.foldl (fun a c => a * 10 + (c.toNat - 48)) 0

-- the `{ month, day, year }` component record.
structure DateParts where
  month : Str
  day : Str
  year : Str
deriving DecidableEq

-- `parseBirthday` (line 652).
def parseBirthday (birthday : Str) : Option DateParts :=
  if birthday = [] then none
  else
    let trimmed := trimStr birthday
    match matchISO trimmed with
    | some (y, m, d) => some ⟨pad2 m, pad2 d, y⟩
    | none =>
      match matchSlash trimmed with
      | some (a, b, y) =>
        let firstNum := digitsToNat a
        let secondNum := digitsToNat b
        if 12 < firstNum && secondNum ≤ 12 then some ⟨pad2 b, pad2 a, y⟩
        else if 12 < secondNum && firstNum ≤ 12 then some ⟨pad2 a, pad2 b, y⟩
        else some ⟨pad2 a, pad2 b, y⟩
      | none =>
        let viaText2 :=
          match matchText2 trimmed with
          | some (d, mt, y) =>
            match MONTH_NAMES.find? (fun p => p.1 = lowerStr mt) with
            | some p => some (⟨p.2, pad2 d, y⟩ : DateParts)
            | none => none
          | none => none
        match matchText1 trimmed with
        | some (mt, d, y) =>
          match MONTH_NAMES.find? (fun p => p.1 = lowerStr mt) with
          | some p => some ⟨p.2, pad2 d, y⟩
          | none => viaText2
        | none => viaText2

-- `BirthdayFormat` (line 633).
inductive BirthdayFormat where
  | MDY   -- 'MM/DD/YYYY'
  | DMY   -- 'DD/MM/YYYY'
  | YMD   -- 'YYYY/MM/DD'
deriving DecidableEq

-- `formatBirthdayToTarget` (line 723).
def formatBirthdayToTarget (p : DateParts) (format : BirthdayFormat) : Str :=
  match format with
  | .MDY => p.month ++ '/' :: p.day ++ '/' :: p.year
  | .DMY => p.day ++ '/' :: p.month ++ '/' :: p.year
  | .YMD => p.year ++ '/' :: p.month ++ '/' :: p.day

-- `cleanBirthday` (line 738): parse then render as MM/DD/YYYY, else pass through trimmed.
def cleanBirthday (birthday : Str) : Str :=
  match parseBirthday birthday with
  | some p => formatBirthdayToTarget p .MDY
  | none => trimStr birthday

/-! ### Rows, `reformatBirthdays`, `cleanCell` (cleaningEngine.ts lines 748-833) -/

-- A `Record<string, string>` in iteration order.  The engine only ever builds
-- rows with pairwise-distinct keys.
abbrev Row := List (Str × Str)

-- `row[k]`, with `undefined` coerced to the empty string.
def getVal (row : Row) (k : Str) : Str :=
  match row.find? (fun p => p.1 = k) with
  | some p => p.2
  | none => []

-- `{...row, [k]: v}`: replace the value at an existing key in place, else append.
def setVal (row : Row) (k : Str) (v : Str) : Row :=
  if row.any (fun p => p.1 = k) then
    row.map (fun p => if p.1 = k then (k, v) else p)
  else row ++ [(k, v)]

-- the body of the `data.map` callback in `reformatBirthdays` (line 752).
def reformatRow (format : BirthdayFormat) (row : Row) : Row :=
  let birthday := getVal row (strL "Birthday")
  if birthday = [] then row
  else
    match parseBirthday birthday with
    | some components => setVal row (strL "Birthday") (formatBirthdayToTarget components format)
    | none => row

-- `reformatBirthdays` (line 748).
def reformatBirthdays (data : List Row) (format : BirthdayFormat) : List Row :=
  data.map (reformatRow format)

-- `TARGET_HEADERS` (line 2).
def TARGET_HEADERS : List Str := [
  strL "Email",
  strL "First Name",
  strL "Last Name",
  strL "Phone",
  strL "Address",
  strL "Birthday",
  strL "Time Zone",
  strL "Status",
  strL "Tags",
  strL "Notes"]

-- `isEmptyValue` (line 766) on string inputs: trimmed lowercase equals one of
-- `'' | 'n/a' | 'null' | 'undefined'`.
def isEmptyValue (value : Str) : Bool :=
  let normalized := lowerStr (trimStr value)
  normalized = [] || normalized = strL "n/a" || normalized = strL "null" ||
    normalized = strL "undefined"

-- `cleanCell` (line 775).  The raw cell is modelled as a string (the engine
-- coerces any other value with `String(value ?? '')`); a null/absent target is
-- `none` and the falsy `''` target is `some []`.
def cleanCell (value : Str) (targetHeader : Option Str) : Str × Bool :=
  let originalValue := trimStr value
  if isEmptyValue value then ([], decide (originalValue ≠ []))
  else
    match targetHeader with
    | none => (originalValue, false)
    | some t =>
      if t = [] then (originalValue, false)
      else
        let cleaned :=
          if t ∈ TARGET_HEADERS then
            if t = strL "First Name" || t = strL "Last Name" then toProperCase originalValue
            else if t = strL "Email" then cleanEmail originalValue
            else if t = strL "Phone" then cleanPhone originalValue
            else if t = strL "Status" then cleanStatus originalValue
            else if t = strL "Tags" then cleanTags originalValue
            else if t = strL "Time Zone" then cleanTimeZone originalValue
            else if t = strL "Birthday" then cleanBirthday originalValue
            else originalValue
          else originalValue
        (cleaned, decide (cleaned ≠ originalValue))

/-! ### Full-name splitting (cleaningEngine.ts lines 70-189) -/

def NAME_PREFIXES : List Str :=
  [strL "Mr", strL "Mr.", strL "Mrs", strL "Mrs.", strL "Ms", strL "Ms.", strL "Miss",
   strL "Dr", strL "Dr.", strL "Prof", strL "Prof.", strL "Professor",
   strL "Rev", strL "Rev.", strL "Reverend",
   strL "Hon", strL "Hon.", strL "Honorable",
   strL "Sir", strL "Dame", strL "Lady", strL "Lord"]

def NAME_SUFFIXES : List Str :=
  [strL "Jr", strL "Jr.", strL "Junior",
   strL "Sr", strL "Sr.", strL "Senior",
   strL "I", strL "II", strL "III", strL "IV", strL "V",
   strL "PhD", strL "Ph.D", strL "Ph.D.",
   strL "MD", strL "M.D", strL "M.D.",
   strL "DDS", strL "D.D.S.",
   strL "Esq", strL "Esq.",
   strL "CPA", strL "RN", strL "MBA"]

structure SplitNameResult where
  firstName : Str
  lastName : Str
  removedPrefix : Option Str := none
  removedSuffix : Option Str := none
deriving DecidableEq

-- `removePrefix` (line 99): drop a leading title, reporting the list form matched.
def removePrefix (words : List Str) : List Str × Option Str :=
  match words with
  | [] => (words, none)
  | firstWord :: _ =>
    match NAME_PREFIXES.find? (fun pre => lowerStr pre = lowerStr firstWord) with
    | some matched => (words.drop 1, some matched)
    | none => (words, none)

-- `removeSuffix` (line 115).
def removeSuffix (words : List Str) : List Str × Option Str :=
  if words = [] then (words, none)
  else
    let lastWord := words.getLastD []
    match NAME_SUFFIXES.find? (fun suf => lowerStr suf = lowerStr lastWord) with
    | some matched => (words.dropLast, some matched)
    | none => (words, none)

-- `fullName.trim().split(/\s+/).filter(w => w.length > 0)`.
def tokenizeName (fullName : Str) : List Str :=
  ((trimStr fullName).splitOnP Char.isWhitespace).filter (· ≠ [])

-- `splitFullName` (line 136).
def splitFullName (fullName : Str) : SplitNameResult :=
  if fullName = [] then { firstName := [], lastName := [] }
  else
    let words0 := tokenizeName fullName
    if words0 = [] then { firstName := [], lastName := [] }
    else
      let pr := removePrefix words0
      let words1 := pr.1
      match removeSuffix words1 with
      | ([], removedS) =>
        { firstName := [], lastName := [], removedPrefix := pr.2, removedSuffix := removedS }
      | ([w], removedS) =>
        { firstName := w, lastName := [], removedPrefix := pr.2, removedSuffix := removedS }
      | ([w1, w2], removedS) =>
        { firstName := w1, lastName := w2, removedPrefix := pr.2, removedSuffix := removedS }
      | ([w1, w2, w3], removedS) =>
        if w2.length = 1 ∨ (w2.length = 2 ∧ w2.getLastD ' ' = '.') then
          { firstName := w1, lastName := w3, removedPrefix := pr.2, removedSuffix := removedS }
        else
          { firstName := w1, lastName := joinSep [' '] [w2, w3],
            removedPrefix := pr.2, removedSuffix := removedS }
      | (w1 :: w2 :: rest, removedS) =>
        { firstName := joinSep [' '] [w1, w2], lastName := joinSep [' '] rest,
          removedPrefix := pr.2, removedSuffix := removedS }

/-! ### Row processor (cleaningEngine.ts lines 836-960) -/

-- `CleaningStats` (line 28).
structure CleaningStats where
  totalRows : Nat
  emailsCleaned : Nat
  phonesNormalized : Nat
  emptyValuesCleared : Nat
  namesToProperCase : Nat
  totalCellsModified : Nat
  statusValidated : Nat
  timeZoneValidated : Nat
  tagsFormatted : Nat
  birthdayFormatted : Nat
  addressesConsolidated : Nat
  emptyRowsRemoved : Nat
  emptyColumnsRemoved : Nat
deriving DecidableEq

def initialStats (rowCount : Nat) : CleaningStats :=
  { totalRows := rowCount, emailsCleaned := 0, phonesNormalized := 0,
    emptyValuesCleared := 0, namesToProperCase := 0, totalCellsModified := 0,
    statusValidated := 0, timeZoneValidated := 0, tagsFormatted := 0,
    birthdayFormatted := 0, addressesConsolidated := 0, emptyRowsRemoved := 0,
    emptyColumnsRemoved := 0 }

-- `HeaderMapping` (line 20); the unused-by-the-engine `confidence` field is omitted.
structure HeaderMapping where
  sourceHeader : Str
  targetHeader : Option Str
  isCustom : Bool := false
deriving DecidableEq

-- Step 1 of `processData`: the 10 standard headers plus custom mapped headers
-- (lines 857-862).
def allTargetHeaders (mappings : List HeaderMapping) : List Str :=
  mappings.foldl
    (fun acc m =>
      match m.targetHeader with
      | some t => if t ≠ [] ∧ m.isCustom ∧ t ∉ acc then acc ++ [t] else acc
      | none => acc)
    TARGET_HEADERS

-- The per-field switch of lines 884-907: bump the counter matching a standard target.
def bumpFieldStat (stats : CleaningStats) (t : Str) : CleaningStats :=
  if t = strL "Email" then { stats with emailsCleaned := stats.emailsCleaned + 1 }
  else if t = strL "Phone" then { stats with phonesNormalized := stats.phonesNormalized + 1 }
  else if t = strL "First Name" ∨ t = strL "Last Name" then
    { stats with namesToProperCase := stats.namesToProperCase + 1 }
  else if t = strL "Status" then { stats with statusValidated := stats.statusValidated + 1 }
  else if t = strL "Time Zone" then
    { stats with timeZoneValidated := stats.timeZoneValidated + 1 }
  else if t = strL "Tags" then { stats with tagsFormatted := stats.tagsFormatted + 1 }
  else if t = strL "Birthday" then
    { stats with birthdayFormatted := stats.birthdayFormatted + 1 }
  else stats

-- One iteration of the `mappings.forEach` body (lines 873-916): clean the mapped
-- cell, write it at the target key, and update the statistics.
def applyMapping (raw : Row) (acc : Row × CleaningStats) (m : HeaderMapping) :
    Row × CleaningStats :=
  match m.targetHeader with
  | none => acc
  | some t =>
    if t = [] ∨ m.sourceHeader = [] then acc
    else
      let rawValue := getVal raw m.sourceHeader
      let cleaned := cleanCell rawValue (some t)
      let row' := setVal acc.1 t cleaned.1
      if cleaned.2 then
        let stats1 := { acc.2 with totalCellsModified := acc.2.totalCellsModified + 1 }
        let stats2 := if t ∈ TARGET_HEADERS then bumpFieldStat stats1 t else stats1
        let stats3 :=
          if cleaned.1 = [] ∧ rawValue ≠ [] then
            { stats2 with emptyValuesCleared := stats2.emptyValuesCleared + 1 }
          else stats2
        (row', stats3)
      else (row', acc.2)

-- The `rows.map` body (lines 864-919): an output row pre-seeded with `''` at
-- every target header, then every mapping applied.
def buildRow (headers : List Str) (mappings : List HeaderMapping) (raw : Row)
    (stats : CleaningStats) : Row × CleaningStats :=
  mappings.foldl (applyMapping raw) (headers.map (fun h => (h, ([] : Str))), stats)

def buildRows (headers : List Str) (mappings : List HeaderMapping) (rows : List Row)
    (stats : CleaningStats) : List Row × CleaningStats :=
  rows.foldl
    (fun acc raw =>
      let r := buildRow headers mappings raw acc.2
      (acc.1 ++ [r.1], r.2))
    ([], stats)

-- `row => Object.values(row).some(v => v && v.trim() !== '')` (line 923).
def rowHasData (row : Row) : Bool :=
  row.any (fun p => p.2 ≠ [] && trimStr p.2 ≠ [])

-- membership in the `columnsWithData` set (lines 931-938).
def columnHasData (data : List Row) (k : Str) : Bool :=
  data.any (fun row => row.any (fun p => p.1 = k && p.2 ≠ [] && trimStr p.2 ≠ []))

-- drop the entries of the empty columns from one row (lines 946-954).
def pruneRow (filtered : List Row) (row : Row) : Row :=
  row.filter (fun p => columnHasData filtered p.1)

-- `processData` (line 836).
def processData (rows : List Row) (mappings : List HeaderMapping) :
    List Row × CleaningStats :=
  let headers := allTargetHeaders mappings
  let built := buildRows headers mappings rows (initialStats rows.length)
  let data := built.1
  let filteredData := data.filter rowHasData
  let statsA := { built.2 with
    emptyRowsRemoved := built.2.emptyRowsRemoved + (data.length - filteredData.length) }
  let allColumns : List Str := match filteredData with
    | [] => []
    | row0 :: _ => row0.map (fun p => p.1)
  let emptyColumns := allColumns.filter (fun c => !columnHasData filteredData c)
  let statsB := { statsA with emptyColumnsRemoved := emptyColumns.length }
  let cleanedData := filteredData.map (pruneRow filteredData)
  let statsC := { statsB with totalRows := cleanedData.length }
  (cleanedData, statsC)

/-! ### Duplicate detection (cleaningEngine.ts lines 1082-1105) -/

inductive DupField where
  | Email
  | Phone
deriving DecidableEq

structure DuplicateGroup where
  field : DupField
  value : Str
  rowIndices : List Nat
deriving DecidableEq

-- `emailMap.get(email).push(index)` on an insertion-ordered map: append `i` to
-- the entry of key `e` (keys are unique), or add a new last entry.
def addEmail : List (Str × List Nat) → Str → Nat → List (Str × List Nat)
  | [], e, i => [(e, [i])]
  | p :: rest, e, i =>
    if p.1 = e then (p.1, p.2 ++ [i]) :: rest else p :: addEmail rest e i

-- the `data.forEach` loop building `emailMap` (lines 1086-1095), starting at row `i`.
def buildEmailMap : List Row → Nat → List (Str × List Nat) → List (Str × List Nat)
  | [], _, m => m
  | row :: rest, i, m =>
    let email := trimStr (lowerStr (getVal row (strL "Email")))
    buildEmailMap rest (i + 1) (if email = [] then m else addEmail m email i)

-- `detectDuplicates` (line 1082).
def detectDuplicates (data : List Row) : List DuplicateGroup :=
  ((buildEmailMap data 0 []).filter (fun p => 1 < p.2.length)).map
    (fun p => { field := .Email, value := p.1, rowIndices := p.2 })

/-! ### Character-level lemmas for the ASCII case mapping -/

theorem charEqOfToNat {a b : Char} (h : a.toNat = b.toNat) : a = b :=
  Char.eq_of_val_eq (UInt32.eq_of_toBitVec_eq (BitVec.eq_of_toNat_eq h))

theorem charNeOfToNat {a b : Char} (h : a.toNat ≠ b.toNat) : a ≠ b :=
  fun he => h (congrArg Char.toNat he)

theorem toNat_ofNat_valid (n : Nat) (h : n.isValidChar) : (Char.ofNat n).toNat = n := by
  unfold Char.ofNat
  rw [dif_pos h]
  simp [Char.ofNatAux, Char.toNat, UInt32.toNat]

theorem toNat_toLower_of_upper (c : Char) (h : 65 ≤ c.toNat ∧ c.toNat ≤ 90) :
    (Char.toLower c).toNat = c.toNat + 32 := by
  unfold Char.toLower
  simp only [if_pos h]
  exact toNat_ofNat_valid _ (Or.inl (by omega))

theorem toLower_of_not_upper (c : Char) (h : ¬(65 ≤ c.toNat ∧ c.toNat ≤ 90)) :
    Char.toLower c = c := by
  unfold Char.toLower
  simp only [if_neg h]

theorem toLower_toLower (c : Char) : (Char.toLower c).toLower = c.toLower := by
  by_cases h : 65 ≤ c.toNat ∧ c.toNat ≤ 90
  · have h1 := toNat_toLower_of_upper c h
    exact toLower_of_not_upper _ (by omega)
  · simp only [toLower_of_not_upper c h]

theorem toNat_toUpper_of_lower (c : Char) (h : 97 ≤ c.toNat ∧ c.toNat ≤ 122) :
    (Char.toUpper c).toNat = c.toNat - 32 := by
  unfold Char.toUpper
  simp only [if_pos h]
  exact toNat_ofNat_valid _ (Or.inl (by omega))

theorem toUpper_of_not_lower (c : Char) (h : ¬(97 ≤ c.toNat ∧ c.toNat ≤ 122)) :
    Char.toUpper c = c := by
  unfold Char.toUpper
  simp only [if_neg h]

theorem toLower_toUpper_toLower (c : Char) : ((c.toLower).toUpper).toLower = c.toLower := by
  by_cases h : 65 ≤ c.toNat ∧ c.toNat ≤ 90
  · have h1 := toNat_toLower_of_upper c h
    have h3 := toNat_toUpper_of_lower c.toLower (by omega)
    have h5 := toNat_toLower_of_upper (c.toLower.toUpper) (by omega)
    apply charEqOfToNat
    omega
  · rw [toLower_of_not_upper c h]
    by_cases h' : 97 ≤ c.toNat ∧ c.toNat ≤ 122
    · have h3 := toNat_toUpper_of_lower c h'
      have h5 := toNat_toLower_of_upper c.toUpper (by omega)
      apply charEqOfToNat
      omega
    · rw [toUpper_of_not_lower c h', toLower_of_not_upper c h]

-- lowering cannot produce or destroy any character of code below 65
theorem toLower_eq_of_small (c d : Char) (hd : d.toNat < 65) :
    (Char.toLower c = d) ↔ (c = d) := by
  by_cases h : 65 ≤ c.toNat ∧ c.toNat ≤ 90
  · have h1 := toNat_toLower_of_upper c h
    constructor
    · intro he
      exact absurd (congrArg Char.toNat he) (by omega)
    · intro he
      exact absurd (congrArg Char.toNat he) (by omega)
  · rw [toLower_of_not_upper c h]

theorem isWhitespace_toLower (c : Char) : (Char.toLower c).isWhitespace = c.isWhitespace := by
  unfold Char.isWhitespace
  rw [decide_eq_decide.mpr (toLower_eq_of_small c ' ' (by decide)),
    decide_eq_decide.mpr (toLower_eq_of_small c '\t' (by decide)),
    decide_eq_decide.mpr (toLower_eq_of_small c '\x0d' (by decide)),
    decide_eq_decide.mpr (toLower_eq_of_small c '\n' (by decide))]

theorem beq_space_toLower (c : Char) : (Char.toLower c == ' ') = (c == ' ') := by
  simp only [BEq.beq]
  rw [decide_eq_decide.mpr (toLower_eq_of_small c ' ' (by decide))]

/-! ### Trimming lemmas -/

theorem dropWhile_trimStr (s : Str) :
    (trimStr s).dropWhile Char.isWhitespace = trimStr s := by
  unfold trimStr
  rw [List.dropWhile_eq_self_iff]
  intro hl
  have hpre := List.rdropWhile_prefix Char.isWhitespace (s.dropWhile Char.isWhitespace)
  have hlen : 0 < (s.dropWhile Char.isWhitespace).length := lt_of_lt_of_le hl hpre.length_le
  have hg := hpre.getElem (n := 0) hl
  have hz := List.dropWhile_get_zero_not (p := Char.isWhitespace) s hlen
  simpa [List.get_eq_getElem, hg] using hz

theorem trimStr_idem (s : Str) : trimStr (trimStr s) = trimStr s := by
  conv_lhs => rw [trimStr, dropWhile_trimStr]
  rw [trimStr, List.rdropWhile_idempotent]

theorem mem_trimStr {c : Char} {s : Str} (h : c ∈ trimStr s) : c ∈ s := by
  apply (List.dropWhile_suffix Char.isWhitespace).sublist.subset
  exact (List.rdropWhile_prefix Char.isWhitespace _).sublist.subset h

/-! ### Splitting and joining lemmas -/

theorem mem_of_mem_splitOnP {p : Char → Bool} {s : Str} :
    ∀ w ∈ s.splitOnP p, ∀ c ∈ w, c ∈ s := by
  induction s with
  | nil =>
    intro w hw c hc
    simp only [List.splitOnP_nil, List.mem_singleton] at hw
    subst hw
    exact absurd hc (List.not_mem_nil c)
  | cons a s ih =>
    intro w hw c hc
    rw [List.splitOnP_cons] at hw
    by_cases h : p a
    · rw [if_pos h] at hw
      rcases List.mem_cons.mp hw with h1 | h1
      · subst h1
        exact absurd hc (List.not_mem_nil c)
      · exact List.mem_cons_of_mem a (ih w h1 c hc)
    · rw [if_neg h] at hw
      rcases hsp : s.splitOnP p with _ | ⟨w0, ws⟩
      · exact absurd hsp (List.splitOnP_ne_nil p s)
      · rw [hsp] at hw
        simp only [List.modifyHead, List.mem_cons] at hw
        rcases hw with h1 | h1
        · subst h1
          rcases List.mem_cons.mp hc with h2 | h2
          · exact h2 ▸ List.mem_cons_self a s
          · exact List.mem_cons_of_mem a (ih w0 (hsp ▸ List.mem_cons_self w0 ws) c h2)
        · exact List.mem_cons_of_mem a (ih w (hsp ▸ List.mem_cons_of_mem w0 h1) c hc)

theorem not_p_of_mem_splitOnP {p : Char → Bool} {s : Str} :
    ∀ w ∈ s.splitOnP p, ∀ c ∈ w, p c = false := by
  induction s with
  | nil =>
    intro w hw c hc
    simp only [List.splitOnP_nil, List.mem_singleton] at hw
    subst hw
    exact absurd hc (List.not_mem_nil c)
  | cons a s ih =>
    intro w hw c hc
    rw [List.splitOnP_cons] at hw
    by_cases h : p a
    · rw [if_pos h] at hw
      rcases List.mem_cons.mp hw with h1 | h1
      · subst h1
        exact absurd hc (List.not_mem_nil c)
      · exact ih w h1 c hc
    · rw [if_neg h] at hw
      rcases hsp : s.splitOnP p with _ | ⟨w0, ws⟩
      · exact absurd hsp (List.splitOnP_ne_nil p s)
      · rw [hsp] at hw
        simp only [List.modifyHead, List.mem_cons] at hw
        rcases hw with h1 | h1
        · subst h1
          rcases List.mem_cons.mp hc with h2 | h2
          · subst h2
            exact Bool.eq_false_iff.mpr h
          · exact ih w0 (hsp ▸ List.mem_cons_self w0 ws) c h2
        · exact ih w (hsp ▸ List.mem_cons_of_mem w0 h1) c hc

theorem splitOnP_joinSep {p : Char → Bool} {b : Char} (hb : p b = true) :
    ∀ L : List Str, L ≠ [] → (∀ w ∈ L, ∀ c ∈ w, p c = false) →
      (joinSep [b] L).splitOnP p = L := by
  intro L
  induction L with
  | nil => intro h; exact absurd rfl h
  | cons w ws ih =>
    intro _ hfree
    cases ws with
    | nil =>
      show (joinSep [b] [w]).splitOnP p = [w]
      rw [joinSep]
      exact List.splitOnP_eq_single p w (fun c hc => by
        simp [hfree w (List.mem_singleton_self w) c hc])
    | cons w' rest =>
      show (w ++ [b] ++ joinSep [b] (w' :: rest)).splitOnP p = w :: w' :: rest
      rw [List.append_assoc, List.singleton_append, List.splitOnP_first p w
        (fun c hc => by simp [hfree w (List.mem_cons_self w _) c hc]) b hb]
      rw [ih (by simp) (fun u hu c hc => hfree u (List.mem_cons_of_mem w hu) c hc)]

theorem joinSep_ne_nil {sep : Str} {L : List Str} (hL : L ≠ [])
    (hw : ∀ w ∈ L, w ≠ []) : joinSep sep L ≠ [] := by
  cases L with
  | nil => exact absurd rfl hL
  | cons w ws =>
    cases ws with
    | nil => exact hw w (List.mem_singleton_self w)
    | cons w' rest =>
      show w ++ sep ++ joinSep sep (w' :: rest) ≠ []
      intro h
      have := hw w (List.mem_cons_self w _)
      simp only [List.append_assoc, List.append_eq_nil] at h
      exact this h.1

theorem mem_joinSep {c : Char} {sep : Str} :
    ∀ {L : List Str}, c ∈ joinSep sep L → c ∈ sep ∨ ∃ w ∈ L, c ∈ w := by
  intro L
  induction L with
  | nil => intro h; exact absurd h (List.not_mem_nil c)
  | cons w ws ih =>
    intro h
    cases ws with
    | nil => exact Or.inr ⟨w, List.mem_singleton_self w, h⟩
    | cons w' rest =>
      rw [joinSep, List.append_assoc] at h
      rcases List.mem_append.mp h with h1 | h1
      · exact Or.inr ⟨w, List.mem_cons_self w _, h1⟩
      · rcases List.mem_append.mp h1 with h2 | h2
        · exact Or.inl h2
        · rcases ih h2 with h3 | ⟨u, hu, hc⟩
          · exact Or.inl h3
          · exact Or.inr ⟨u, List.mem_cons_of_mem w hu, hc⟩

/-! ### Specification-side views used by the theorems -/

-- the normalized grouping key of a row: its case-insensitively lowered,
-- trimmed Email value.
def emailKeyOf (row : Row) : Str := trimStr (lowerStr (getVal row (strL "Email")))

-- the indices (counting from `i`) of the rows whose non-empty email key is `v`.
def occFrom (v : Str) : List Row → Nat → List Nat
  | [], _ => []
  | row :: rest, i =>
    (if emailKeyOf row = v ∧ v ≠ [] then [i] else []) ++ occFrom v rest (i + 1)

-- association-list lookup on the email map.
def lookupKey (m : List (Str × List Nat)) (v : Str) : Option (List Nat) :=
  (m.find? (fun p => p.1 = v)).map (fun p => p.2)

set_option maxRecDepth 8000

/-! ### Base facts about the fixed tables, checked by evaluation -/

theorem valid_statuses_fixed : ∀ v ∈ VALID_STATUSES, cleanStatus v = v := by decide

theorem valid_time_zones_fixed : ∀ v ∈ VALID_TIME_ZONES, cleanTimeZone v = v := by decide

theorem alias_values_valid : ∀ p ∈ TIMEZONE_ALIASES, p.2 ∈ VALID_TIME_ZONES := by decide

/-! ### C7 -/

/-- C7: the claim that `formatPhoneNumber` is a distinct dashed-grouping display
format is false: `formatPhoneNumber` and `cleanPhone` are the same non-digit
stripping transformation, so no input distinguishes them. -/
theorem formatPhoneNumber_eq_cleanPhone : formatPhoneNumber = cleanPhone := rfl

/-- C7 (amended): `formatPhoneNumber` at export time agrees with the
cleaning-time normalizer `cleanPhone` on every input, and on a digit-only
value both act as the identity — no dashed grouping is ever introduced. -/
theorem formatPhoneNumber_digits_identity (s : Str) (h : ∀ c ∈ s, c.isDigit = true) :
    formatPhoneNumber s = cleanPhone s ∧ formatPhoneNumber s = s := by
  refine ⟨rfl, ?_⟩
  unfold formatPhoneNumber
  by_cases hs : s = []
  · rw [if_pos hs, hs]
  · rw [if_neg hs]
    exact List.filter_eq_self.mpr h

/-- C7 witness: both functions leave the digit string `5551234567` unchanged. -/
theorem formatPhoneNumber_digits_identity_witness :
    formatPhoneNumber (strL "5551234567") = cleanPhone (strL "5551234567") ∧
      formatPhoneNumber (strL "5551234567") = strL "5551234567" :=
  formatPhoneNumber_digits_identity (strL "5551234567") (by decide)

/-! ### C4 -/

/-- C4: the claimed result of splitting `"Dr. John Michael Smith Jr."` is wrong:
after stripping `Dr.` and `Jr.` three tokens remain, and the 3-token rule puts
only `John` in the first name, not `John Michael`. -/
theorem splitFullName_example_ne_claimed :
    splitFullName (strL "Dr. John Michael Smith Jr.") ≠
      { firstName := strL "John Michael", lastName := strL "Smith",
        removedPrefix := some (strL "Dr."), removedSuffix := some (strL "Jr.") } := by
  decide

/-- C4 (amended): `splitFullName("Dr. John Michael Smith Jr.")` strips prefix
`Dr.` and suffix `Jr.`, and the remaining three tokens are split per the
3-token rule into firstName `John` and lastName `Michael Smith`. -/
theorem splitFullName_example :
    splitFullName (strL "Dr. John Michael Smith Jr.") =
      { firstName := strL "John", lastName := strL "Michael Smith",
        removedPrefix := some (strL "Dr."), removedSuffix := some (strL "Jr.") } := by
  decide

/-! ### C2 -/

/-- C2: the claim that `"Central Park"` is returned unchanged is false — the
bidirectional substring scan matches the alias key `central` inside
`central park` and resolves it. -/
theorem cleanTimeZone_central_park_changed :
    cleanTimeZone (strL "Central Park") ≠ strL "Central Park" := by decide

/-- C2 (amended): `cleanTimeZone` resolves by exact case-insensitive canonical
match first, then exact alias-key match, then bidirectional substring
containment returning the canonical value of the first matching alias in
table order (whenever the alias table splits as a prefix with no substring
match followed by a matching entry, the result is that entry's value), else
returns the trimmed original; exact matches do take precedence over substring
matches, but the substring stage itself resolves `"Central Park"` to
`"Central Time (US & Canada)"` rather than leaving it unchanged. -/
theorem cleanTimeZone_resolution (x : Str) (hx : x ≠ []) :
    ((∃ v ∈ VALID_TIME_ZONES, lowerStr v = lowerStr (trimStr x)) →
      ∃ v ∈ VALID_TIME_ZONES, lowerStr v = lowerStr (trimStr x) ∧ cleanTimeZone x = v) ∧
    ((¬ ∃ v ∈ VALID_TIME_ZONES, lowerStr v = lowerStr (trimStr x)) →
      (∃ p ∈ TIMEZONE_ALIASES, p.1 = lowerStr (trimStr x)) →
      ∃ p ∈ TIMEZONE_ALIASES, p.1 = lowerStr (trimStr x) ∧ cleanTimeZone x = p.2) ∧
    ((¬ ∃ v ∈ VALID_TIME_ZONES, lowerStr v = lowerStr (trimStr x)) →
      (¬ ∃ p ∈ TIMEZONE_ALIASES, p.1 = lowerStr (trimStr x)) →
      ∀ (l₁ l₂ : List (Str × Str)) (p : Str × Str),
        TIMEZONE_ALIASES = l₁ ++ p :: l₂ →
        (isSubstrOf p.1 (lowerStr (trimStr x)) || isSubstrOf (lowerStr (trimStr x)) p.1) = true →
        (∀ q ∈ l₁,
          (isSubstrOf q.1 (lowerStr (trimStr x)) ||
            isSubstrOf (lowerStr (trimStr x)) q.1) = false) →
        cleanTimeZone x = p.2) ∧
    ((¬ ∃ v ∈ VALID_TIME_ZONES, lowerStr v = lowerStr (trimStr x)) →
      (¬ ∃ p ∈ TIMEZONE_ALIASES, p.1 = lowerStr (trimStr x)) →
      (¬ ∃ p ∈ TIMEZONE_ALIASES,
        (isSubstrOf p.1 (lowerStr (trimStr x)) || isSubstrOf (lowerStr (trimStr x)) p.1) = true) →
      cleanTimeZone x = trimStr x) ∧
    cleanTimeZone (strL "Central Park") = strL "Central Time (US & Canada)" := by
  have hclean : ∀ y, cleanTimeZone x = y ↔
      (match VALID_TIME_ZONES.find? (fun v => lowerStr v = lowerStr (trimStr x)) with
      | some v => v
      | none =>
        match TIMEZONE_ALIASES.find? (fun p => p.1 = lowerStr (trimStr x)) with
        | some p => p.2
        | none =>
          match TIMEZONE_ALIASES.find? (fun p =>
              isSubstrOf p.1 (lowerStr (trimStr x)) ||
                isSubstrOf (lowerStr (trimStr x)) p.1) with
          | some p => p.2
          | none => trimStr x) = y := by
    intro y
    simp only [cleanTimeZone, if_neg hx]
  refine ⟨?_, ?_, ?_, ?_, by decide⟩
  · intro hex
    have hsome : (VALID_TIME_ZONES.find?
        (fun v => lowerStr v = lowerStr (trimStr x))).isSome := by
      rw [List.find?_isSome]
      rcases hex with ⟨v, hv, he⟩
      exact ⟨v, hv, by simpa using he⟩
    rcases Option.isSome_iff_exists.mp hsome with ⟨v, hfind⟩
    refine ⟨v, List.mem_of_find?_eq_some hfind, by simpa using List.find?_some hfind, ?_⟩
    rw [hclean]
    rw [hfind]
  · intro hnex hex
    have hnone : VALID_TIME_ZONES.find?
        (fun v => lowerStr v = lowerStr (trimStr x)) = none := by
      rw [List.find?_eq_none]
      intro v hv hp
      exact hnex ⟨v, hv, by simpa using hp⟩
    have hsome : (TIMEZONE_ALIASES.find? (fun p => p.1 = lowerStr (trimStr x))).isSome := by
      rw [List.find?_isSome]
      rcases hex with ⟨p, hp, he⟩
      exact ⟨p, hp, by simpa using he⟩
    rcases Option.isSome_iff_exists.mp hsome with ⟨p, hfind⟩
    refine ⟨p, List.mem_of_find?_eq_some hfind, by simpa using List.find?_some hfind, ?_⟩
    rw [hclean]
    rw [hnone, hfind]
  · intro hnex1 hnex2 l₁ l₂ p heq hp hl₁
    have hnone1 : VALID_TIME_ZONES.find?
        (fun v => lowerStr v = lowerStr (trimStr x)) = none := by
      rw [List.find?_eq_none]
      intro v hv hpv
      exact hnex1 ⟨v, hv, by simpa using hpv⟩
    have hnone2 : TIMEZONE_ALIASES.find? (fun p => p.1 = lowerStr (trimStr x)) = none := by
      rw [List.find?_eq_none]
      intro q hq he
      exact hnex2 ⟨q, hq, by simpa using he⟩
    have hfind : TIMEZONE_ALIASES.find? (fun p =>
        isSubstrOf p.1 (lowerStr (trimStr x)) ||
          isSubstrOf (lowerStr (trimStr x)) p.1) = some p := by
      rw [heq, List.find?_append]
      have h1 : l₁.find? (fun p =>
          isSubstrOf p.1 (lowerStr (trimStr x)) ||
            isSubstrOf (lowerStr (trimStr x)) p.1) = none := by
        rw [List.find?_eq_none]
        intro q hq
        simp [hl₁ q hq]
      rw [h1]
      show List.find? (fun p =>
          isSubstrOf p.1 (lowerStr (trimStr x)) ||
            isSubstrOf (lowerStr (trimStr x)) p.1) (p :: l₂) = some p
      exact List.find?_cons_of_pos l₂ hp
    rw [hclean]
    rw [hnone1, hnone2, hfind]
  · intro hnex1 hnex2 hnex3
    have hnone1 : VALID_TIME_ZONES.find?
        (fun v => lowerStr v = lowerStr (trimStr x)) = none := by
      rw [List.find?_eq_none]
      intro v hv hp
      exact hnex1 ⟨v, hv, by simpa using hp⟩
    have hnone2 : TIMEZONE_ALIASES.find? (fun p => p.1 = lowerStr (trimStr x)) = none := by
      rw [List.find?_eq_none]
      intro p hp he
      exact hnex2 ⟨p, hp, by simpa using he⟩
    have hnone3 : TIMEZONE_ALIASES.find? (fun p =>
        isSubstrOf p.1 (lowerStr (trimStr x)) ||
          isSubstrOf (lowerStr (trimStr x)) p.1) = none := by
      rw [List.find?_eq_none]
      intro p hp he
      exact hnex3 ⟨p, hp, by simpa using he⟩
    rw [hclean]
    rw [hnone1, hnone2, hnone3]

/-- C2 witness: on `"PST"` no canonical zone matches exactly but the alias key
`pst` does, so the second stage fires and yields the Pacific zone; and on
`"Central Park"` the substring stage fires at the first matching alias
(`central`, position 12 of the table, nothing earlier matches) and yields
`"Central Time (US & Canada)"`. -/
theorem cleanTimeZone_resolution_witness :
    ((¬ ∃ v ∈ VALID_TIME_ZONES, lowerStr v = lowerStr (trimStr (strL "PST"))) ∧
    (∃ p ∈ TIMEZONE_ALIASES, p.1 = lowerStr (trimStr (strL "PST"))) ∧
    ∃ p ∈ TIMEZONE_ALIASES, p.1 = lowerStr (trimStr (strL "PST")) ∧
      cleanTimeZone (strL "PST") = p.2) ∧
    cleanTimeZone (strL "Central Park") =
      (strL "central", strL "Central Time (US & Canada)").2 :=
  ⟨⟨by decide, by decide,
    ((cleanTimeZone_resolution (strL "PST") (by decide)).2.1 (by decide) (by decide))⟩,
    (cleanTimeZone_resolution (strL "Central Park") (by decide)).2.2.1
      (by decide) (by decide)
      (TIMEZONE_ALIASES.take 12) (TIMEZONE_ALIASES.drop 13)
      (strL "central", strL "Central Time (US & Canada)")
      (by decide) (by decide) (by decide)⟩

/-! ### C8 / C9: the email map characterization -/


theorem lookupKey_addEmail (e : Str) (i : Nat) (v : Str) :
    ∀ m : List (Str × List Nat), lookupKey (addEmail m e i) v =
      if v = e then some ((lookupKey m e).getD [] ++ [i]) else lookupKey m v := by
  intro m
  induction m with
  | nil =>
    by_cases hv : v = e
    · simp [addEmail, lookupKey, hv]
    · have hev : ¬(e = v) := fun h => hv h.symm
      simp [addEmail, lookupKey, hv, hev]
  | cons p rest ih =>
    by_cases hpe : p.1 = e
    · rw [addEmail, if_pos hpe]
      by_cases hv : v = e
      · subst hv
        rw [if_pos rfl, lookupKey, lookupKey,
          List.find?_cons_of_pos _ (by simp [hpe]),
          List.find?_cons_of_pos _ (by simp [hpe])]
        simp
      · rw [if_neg hv]
        have hne : ¬(p.1 = v) := by rw [hpe]; exact fun h => hv h.symm
        rw [lookupKey, lookupKey,
          List.find?_cons_of_neg _ (by simp [hne]),
          List.find?_cons_of_neg _ (by simp [hne])]
    · rw [addEmail, if_neg hpe]
      by_cases hpv : p.1 = v
      · have hv : ¬(v = e) := fun h => hpe (h ▸ hpv)
        rw [if_neg hv, lookupKey, lookupKey,
          List.find?_cons_of_pos _ (by simp [hpv]),
          List.find?_cons_of_pos _ (by simp [hpv])]
      · have hl : lookupKey (p :: addEmail rest e i) v = lookupKey (addEmail rest e i) v := by
          rw [lookupKey, List.find?_cons_of_neg _ (by simp [hpv]), lookupKey]
        have hr : lookupKey (p :: rest) v = lookupKey rest v := by
          rw [lookupKey, List.find?_cons_of_neg _ (by simp [hpv]), lookupKey]
        by_cases hv : v = e
        · have hre : lookupKey (p :: rest) e = lookupKey rest e := by
            rw [lookupKey, List.find?_cons_of_neg _ (by simp [hv ▸ hpv]), lookupKey]
          rw [hl, if_pos hv, hre, ih, if_pos hv]
        · rw [hl, if_neg hv, hr, ih, if_neg hv]

theorem keys_addEmail_subset {k e : Str} {i : Nat} :
    ∀ {m : List (Str × List Nat)}, k ∈ (addEmail m e i).map (fun p => p.1) →
      k ∈ m.map (fun p => p.1) ∨ k = e := by
  intro m
  induction m with
  | nil =>
    intro h
    simp only [addEmail, List.map_cons, List.map_nil, List.mem_singleton] at h
    exact Or.inr h
  | cons p rest ih =>
    intro h
    by_cases hpe : p.1 = e
    · simp only [addEmail, if_pos hpe, List.map_cons, List.mem_cons] at h
      rcases h with h | h
      · exact Or.inl (h ▸ List.mem_cons_self _ _)
      · exact Or.inl (List.mem_cons_of_mem _ h)
    · simp only [addEmail, if_neg hpe, List.map_cons, List.mem_cons] at h
      rcases h with h | h
      · exact Or.inl (h ▸ List.mem_cons_self _ _)
      · rcases ih h with h1 | h1
        · exact Or.inl (List.mem_cons_of_mem _ h1)
        · exact Or.inr h1

theorem keys_nodup_addEmail {e : Str} {i : Nat} :
    ∀ {m : List (Str × List Nat)}, (m.map (fun p => p.1)).Nodup →
      ((addEmail m e i).map (fun p => p.1)).Nodup := by
  intro m
  induction m with
  | nil => intro _; simp [addEmail]
  | cons p rest ih =>
    intro h
    simp only [List.map_cons, List.nodup_cons] at h
    by_cases hpe : p.1 = e
    · rw [addEmail, if_pos hpe]
      simp only [List.map_cons, List.nodup_cons]
      exact h
    · rw [addEmail, if_neg hpe]
      simp only [List.map_cons, List.nodup_cons]
      refine ⟨fun hmem => ?_, ih h.2⟩
      rcases keys_addEmail_subset hmem with h1 | h1
      · exact h.1 h1
      · exact hpe h1

theorem keys_ne_nil_addEmail {e : Str} {i : Nat} (he : e ≠ []) :
    ∀ {m : List (Str × List Nat)}, (∀ p ∈ m, p.1 ≠ []) →
      ∀ p ∈ addEmail m e i, p.1 ≠ [] := by
  intro m
  induction m with
  | nil =>
    intro _ p hp
    simp only [addEmail, List.mem_singleton] at hp
    subst hp
    exact he
  | cons q rest ih =>
    intro h p hp
    by_cases hqe : q.1 = e
    · rw [addEmail, if_pos hqe] at hp
      rcases List.mem_cons.mp hp with h1 | h1
      · subst h1
        exact h q (List.mem_cons_self q rest)
      · exact h p (List.mem_cons_of_mem q h1)
    · rw [addEmail, if_neg hqe] at hp
      rcases List.mem_cons.mp hp with h1 | h1
      · subst h1
        exact h p (List.mem_cons_self p rest)
      · exact ih (fun q' hq' => h q' (List.mem_cons_of_mem q hq')) p h1

theorem lookupKey_buildEmailMap (v : Str) :
    ∀ (data : List Row) (i : Nat) (m : List (Str × List Nat)),
      lookupKey (buildEmailMap data i m) v =
        match lookupKey m v with
        | some l => some (l ++ occFrom v data i)
        | none => if occFrom v data i = [] then none else some (occFrom v data i) := by
  intro data
  induction data with
  | nil =>
    intro i m
    simp only [buildEmailMap, occFrom]
    cases lookupKey m v with
    | none => simp
    | some l => simp
  | cons row rest ih =>
    intro i m
    rw [buildEmailMap]
    have hrw : trimStr (lowerStr (getVal row (strL "Email"))) = emailKeyOf row := rfl
    rw [hrw]
    by_cases hek : emailKeyOf row = []
    · rw [if_pos hek, ih]
      have hocc : occFrom v (row :: rest) i = occFrom v rest (i + 1) := by
        rw [occFrom]
        have hng : ¬(emailKeyOf row = v ∧ v ≠ []) := by
          rintro ⟨h1, h2⟩
          exact h2 (h1 ▸ hek)
        rw [if_neg hng, List.nil_append]
      rw [hocc]
    · rw [if_neg hek, ih, lookupKey_addEmail]
      by_cases hv : v = emailKeyOf row
      · subst hv
        rw [if_pos rfl]
        simp only [occFrom]
        cases hm : lookupKey m (emailKeyOf row) with
        | some l => simp [hek]
        | none => simp [hek]
      · have hng : ¬(emailKeyOf row = v ∧ v ≠ []) := fun hand => hv hand.1.symm
        rw [if_neg hv]
        simp only [occFrom]
        rw [if_neg hng, List.nil_append]

theorem keys_nodup_buildEmailMap :
    ∀ (data : List Row) (i : Nat) (m : List (Str × List Nat)),
      (m.map (fun p => p.1)).Nodup → ((buildEmailMap data i m).map (fun p => p.1)).Nodup := by
  intro data
  induction data with
  | nil => intro i m h; exact h
  | cons row rest ih =>
    intro i m h
    rw [buildEmailMap]
    by_cases hek : trimStr (lowerStr (getVal row (strL "Email"))) = []
    · rw [if_pos hek]
      exact ih _ _ h
    · rw [if_neg hek]
      exact ih _ _ (keys_nodup_addEmail h)

theorem keys_ne_nil_buildEmailMap :
    ∀ (data : List Row) (i : Nat) (m : List (Str × List Nat)),
      (∀ p ∈ m, p.1 ≠ []) → ∀ p ∈ buildEmailMap data i m, p.1 ≠ [] := by
  intro data
  induction data with
  | nil => intro i m h; exact h
  | cons row rest ih =>
    intro i m h
    rw [buildEmailMap]
    by_cases hek : trimStr (lowerStr (getVal row (strL "Email"))) = []
    · rw [if_pos hek]
      exact ih _ _ h
    · rw [if_neg hek]
      exact ih _ _ (keys_ne_nil_addEmail hek h)

theorem lookupKey_of_mem_nodup :
    ∀ {m : List (Str × List Nat)}, (m.map (fun p => p.1)).Nodup →
      ∀ {p : Str × List Nat}, p ∈ m → lookupKey m p.1 = some p.2 := by
  intro m
  induction m with
  | nil =>
    intro _ p hp
    exact absurd hp (List.not_mem_nil p)
  | cons q rest ih =>
    intro hn p hp
    simp only [List.map_cons, List.nodup_cons] at hn
    rcases List.mem_cons.mp hp with h1 | h1
    · subst h1
      rw [lookupKey, List.find?_cons_of_pos _ (by simp)]
      rfl
    · have hq : ¬(q.1 = p.1) := fun he =>
        hn.1 (he ▸ List.mem_map_of_mem (fun r => r.1) h1)
      rw [lookupKey, List.find?_cons_of_neg _ (by simp [hq])]
      exact ih hn.2 h1

theorem mem_of_lookupKey_some {m : List (Str × List Nat)} {v : Str} {l : List Nat}
    (h : lookupKey m v = some l) : (v, l) ∈ m := by
  rw [lookupKey] at h
  cases hf : m.find? (fun p => p.1 = v) with
  | none => rw [hf] at h; exact absurd h (by simp)
  | some p =>
    rw [hf] at h
    have hp1 : p.1 = v := by simpa using List.find?_some hf
    have hp2 : p.2 = l := by simpa using h
    have := List.mem_of_find?_eq_some hf
    rwa [show (v, l) = p from by rw [← hp1, ← hp2]]

/-- C8: `detectDuplicates` groups row indices by case-insensitive trimmed Email
value: every emitted group carries field `Email`, at least two indices, and
exactly the indices of the rows bearing its value; values are never repeated
across groups; every non-empty email value occurring in at least two rows
yields a group; and the two rows `A@B.com` / `a@b.com` form the single group
`a@b.com` with row indices `[0, 1]`. -/
theorem detectDuplicates_email_groups (data : List Row) :
    (∀ g ∈ detectDuplicates data, g.field = DupField.Email ∧ 2 ≤ g.rowIndices.length ∧
      g.rowIndices = occFrom g.value data 0) ∧
    ((detectDuplicates data).map (fun g => g.value)).Nodup ∧
    (∀ v : Str, v ≠ [] → 2 ≤ (occFrom v data 0).length →
      ∃ g ∈ detectDuplicates data, g.value = v ∧ g.rowIndices = occFrom v data 0) ∧
    detectDuplicates [[(strL "Email", strL "A@B.com")], [(strL "Email", strL "a@b.com")]] =
      [{ field := .Email, value := strL "a@b.com", rowIndices := [0, 1] }] := by
  have hnodup : ((buildEmailMap data 0 []).map (fun p => p.1)).Nodup :=
    keys_nodup_buildEmailMap data 0 [] (by simp)
  have hchar : ∀ v : Str, lookupKey (buildEmailMap data 0 []) v =
      if occFrom v data 0 = [] then none else some (occFrom v data 0) := by
    intro v
    rw [lookupKey_buildEmailMap v data 0 []]
    rfl
  refine ⟨?_, ?_, ?_, by decide⟩
  · intro g hg
    rcases List.mem_map.mp hg with ⟨p, hpf, rfl⟩
    rcases List.mem_filter.mp hpf with ⟨hpm, hplen⟩
    refine ⟨rfl, by simpa using hplen, ?_⟩
    have hlk := lookupKey_of_mem_nodup hnodup hpm
    rw [hchar p.1] at hlk
    by_cases hocc : occFrom p.1 data 0 = []
    · rw [if_pos hocc] at hlk
      exact absurd hlk (by simp)
    · rw [if_neg hocc] at hlk
      simpa using hlk.symm
  · have : ((detectDuplicates data).map (fun g => g.value)) =
        (((buildEmailMap data 0 []).filter (fun p => 1 < p.2.length)).map (fun p => p.1)) := by
      rw [detectDuplicates, List.map_map]
      rfl
    rw [this]
    exact hnodup.sublist (List.Sublist.map _ (List.filter_sublist _))
  · intro v hv hlen
    have hocc : occFrom v data 0 ≠ [] := by
      intro h
      rw [h] at hlen
      exact absurd hlen (by simp)
    have hlk := hchar v
    rw [if_neg hocc] at hlk
    have hmem := mem_of_lookupKey_some hlk
    refine ⟨{ field := .Email, value := v, rowIndices := occFrom v data 0 }, ?_, rfl, rfl⟩
    rw [detectDuplicates]
    refine List.mem_map.mpr ⟨(v, occFrom v data 0), ?_, rfl⟩
    exact List.mem_filter.mpr ⟨hmem, by simpa using hlen⟩

/-- C8 witness: instantiated on the two-row `A@B.com` / `a@b.com` example, the
value `a@b.com` occurs twice and yields a matching group. -/
theorem detectDuplicates_email_groups_witness :
    ∃ g ∈ detectDuplicates [[(strL "Email", strL "A@B.com")], [(strL "Email", strL "a@b.com")]],
      g.value = strL "a@b.com" ∧
      g.rowIndices = occFrom (strL "a@b.com")
        [[(strL "Email", strL "A@B.com")], [(strL "Email", strL "a@b.com")]] 0 :=
  (detectDuplicates_email_groups
    [[(strL "Email", strL "A@B.com")], [(strL "Email", strL "a@b.com")]]).2.2.1
    (strL "a@b.com") (by decide) (by decide)

/-- C9: a group's value is never the empty string — rows whose Email is empty,
whitespace-only or missing are skipped by the map-building loop, so they are
never reported as duplicates of each other; in particular three such rows
produce no duplicate group at all. -/
theorem detectDuplicates_value_ne_empty (data : List Row) :
    (∀ g ∈ detectDuplicates data, g.value ≠ []) ∧
    detectDuplicates [[(strL "Email", strL "")], [(strL "Email", strL "")],
      [(strL "Email", strL " ")]] = [] := by
  refine ⟨?_, by decide⟩
  intro g hg
  rcases List.mem_map.mp hg with ⟨p, hpf, rfl⟩
  rcases List.mem_filter.mp hpf with ⟨hpm, _⟩
  exact keys_ne_nil_buildEmailMap data 0 [] (by simp) p hpm

/-- C9 witness: the group produced by the duplicated `a@b.com` rows has a
non-empty value. -/
theorem detectDuplicates_value_ne_empty_witness :
    (⟨DupField.Email, strL "a@b.com", [0, 1]⟩ : DuplicateGroup) ∈
      detectDuplicates [[(strL "Email", strL "A@B.com")], [(strL "Email", strL "a@b.com")]] ∧
    (strL "a@b.com" : Str) ≠ [] :=
  ⟨by decide,
    (detectDuplicates_value_ne_empty
      [[(strL "Email", strL "A@B.com")], [(strL "Email", strL "a@b.com")]]).1
      ⟨DupField.Email, strL "a@b.com", [0, 1]⟩ (by decide)⟩

/-! ### C10: digit-run facts for the birthday matchers -/

theorem ws_not_digit (c : Char) (h : c.isWhitespace = true) : c.isDigit = false := by
  unfold Char.isWhitespace at h
  simp only [Bool.or_eq_true, decide_eq_true_eq] at h
  rcases h with ((h | h) | h) | h <;> subst h <;> rfl

theorem digit_not_ws (c : Char) (h : c.isDigit = true) : c.isWhitespace = false := by
  cases hw : c.isWhitespace with
  | false => rfl
  | true =>
    rw [ws_not_digit c hw] at h
    exact absurd h (by simp)

theorem dateSep_not_digit (c : Char) (h : isDateSep c = true) : c.isDigit = false := by
  unfold isDateSep at h
  simp only [Bool.or_eq_true, beq_iff_eq] at h
  rcases h with h | h <;> subst h <;> rfl

theorem dateSep_not_ws (c : Char) (h : isDateSep c = true) : c.isWhitespace = false := by
  unfold isDateSep at h
  simp only [Bool.or_eq_true, beq_iff_eq] at h
  rcases h with h | h <;> subst h <;> rfl

theorem run_split {p : Char → Bool} {l1 : Str} (h1 : ∀ c ∈ l1, p c = true) {x : Char}
    (hx : p x = false) (l2 : Str) :
    (l1 ++ x :: l2).takeWhile p = l1 ∧ (l1 ++ x :: l2).dropWhile p = x :: l2 := by
  induction l1 with
  | nil =>
    simp only [List.nil_append]
    constructor
    · rw [List.takeWhile_cons_of_neg (by simp [hx])]
    · rw [List.dropWhile_cons_of_neg (by simp [hx])]
  | cons c cs ih =>
    have hc : p c = true := h1 c (List.mem_cons_self c cs)
    have ihr := ih (fun d hd => h1 d (List.mem_cons_of_mem c hd))
    constructor
    · rw [List.cons_append, List.takeWhile_cons_of_pos (by simp [hc]), ihr.1]
    · rw [List.cons_append, List.dropWhile_cons_of_pos (by simp [hc]), ihr.2]

theorem run_all {p : Char → Bool} {l : Str} (h : ∀ c ∈ l, p c = true) :
    l.takeWhile p = l ∧ l.dropWhile p = [] := by
  induction l with
  | nil => exact ⟨rfl, rfl⟩
  | cons c cs ih =>
    have hc : p c = true := h c (List.mem_cons_self c cs)
    have ihr := ih (fun d hd => h d (List.mem_cons_of_mem c hd))
    constructor
    · rw [List.takeWhile_cons_of_pos (by simp [hc]), ihr.1]
    · rw [List.dropWhile_cons_of_pos (by simp [hc]), ihr.2]

theorem trimStr_eq_self {s : Str} (h : ∀ c ∈ s, c.isWhitespace = false) : trimStr s = s := by
  unfold trimStr
  have hdrop : s.dropWhile Char.isWhitespace = s := by
    rw [List.dropWhile_eq_self_iff]
    intro hl
    rw [h (s.get ⟨0, hl⟩) (s.get_mem 0 hl)]
    simp
  rw [hdrop, List.rdropWhile_eq_self_iff]
  intro hl
  rw [h (s.getLast hl) (s.getLast_mem hl)]
  simp

/-- C10: `parseBirthday` performs no range validation: any `A sep B sep YYYY`
input whose two leading components are both numerically greater than 12 is
parsed with month `A` and day `B` (zero-padded) rather than rejected, and
`cleanBirthday` renders `"13/13/1990"` unchanged into the MM/DD/YYYY template
with month 13. -/
theorem parseBirthday_no_range_check (a b y : Str) (sep1 sep2 : Char)
    (had : ∀ c ∈ a, c.isDigit = true) (hal : a.length = 1 ∨ a.length = 2)
    (hbd : ∀ c ∈ b, c.isDigit = true) (hbl : b.length = 1 ∨ b.length = 2)
    (hyd : ∀ c ∈ y, c.isDigit = true) (hyl : y.length = 4)
    (hs1 : isDateSep sep1 = true) (hs2 : isDateSep sep2 = true)
    (hA : 12 < digitsToNat a) (hB : 12 < digitsToNat b) :
    parseBirthday (a ++ sep1 :: b ++ sep2 :: y) = some ⟨pad2 a, pad2 b, y⟩ ∧
    cleanBirthday (strL "13/13/1990") = strL "13/13/1990" := by
  refine ⟨?_, by decide⟩
  have hne : a ++ sep1 :: b ++ sep2 :: y ≠ [] := by
    rcases a with _ | ⟨c, cs⟩
    · rcases hal with h | h <;> exact absurd h (by simp)
    · simp
  have htrim : trimStr (a ++ sep1 :: b ++ sep2 :: y) = a ++ sep1 :: b ++ sep2 :: y := by
    apply trimStr_eq_self
    intro c hc
    rcases List.mem_append.mp hc with h | h
    · rcases List.mem_append.mp h with h1 | h1
      · exact digit_not_ws c (had c h1)
      · rcases List.mem_cons.mp h1 with h2 | h2
        · exact h2 ▸ dateSep_not_ws sep1 hs1
        · exact digit_not_ws c (hbd c h2)
    · rcases List.mem_cons.mp h with h2 | h2
      · exact h2 ▸ dateSep_not_ws sep2 hs2
      · exact digit_not_ws c (hyd c h2)
  have hsplit1 := run_split had (dateSep_not_digit sep1 hs1) (b ++ sep2 :: y)
  have hsplit2 := run_split hbd (dateSep_not_digit sep2 hs2) y
  have hrun3 := run_all hyd
  have ha4 : ¬(a.length = 4) := by rcases hal with h | h <;> omega
  have hc1 : ((1 ≤ a.length && a.length ≤ 2) && isDateSep sep1) = true := by
    simp only [hs1, Bool.and_true, Bool.and_eq_true, decide_eq_true_eq]
    omega
  have hc2 : ((1 ≤ b.length && b.length ≤ 2) && isDateSep sep2) = true := by
    simp only [hs2, Bool.and_true, Bool.and_eq_true, decide_eq_true_eq]
    omega
  have hiso : matchISO (a ++ sep1 :: b ++ sep2 :: y) = none := by
    rw [matchISO]
    rw [show a ++ sep1 :: b ++ sep2 :: y = a ++ sep1 :: (b ++ sep2 :: y) from by simp]
    rw [hsplit1.1, hsplit1.2]
    dsimp only
    rw [if_neg (by simp [ha4])]
  have hslash : matchSlash (a ++ sep1 :: b ++ sep2 :: y) = some (a, b, y) := by
    rw [matchSlash]
    rw [show a ++ sep1 :: b ++ sep2 :: y = a ++ sep1 :: (b ++ sep2 :: y) from by simp]
    rw [hsplit1.1, hsplit1.2]
    dsimp only
    rw [if_pos hc1, hsplit2.1, hsplit2.2]
    dsimp only
    rw [if_pos hc2, hrun3.1, hrun3.2]
    dsimp only
    rw [if_pos (by simp [hyl])]
  rw [parseBirthday, if_neg hne, htrim]
  dsimp only
  rw [hiso]
  dsimp only
  rw [hslash]
  dsimp only
  rw [if_neg (by simp only [Bool.and_eq_true, decide_eq_true_eq]; omega),
    if_neg (by simp only [Bool.and_eq_true, decide_eq_true_eq]; omega)]

/-- C10 witness: `"13/13/1990"` parses to month `13`, day `13`, year `1990`. -/
theorem parseBirthday_no_range_check_witness :
    parseBirthday (strL "13" ++ '/' :: strL "13" ++ '/' :: strL "1990") =
      some ⟨pad2 (strL "13"), pad2 (strL "13"), strL "1990"⟩ ∧
    cleanBirthday (strL "13/13/1990") = strL "13/13/1990" :=
  parseBirthday_no_range_check (strL "13") (strL "13") (strL "1990") '/' '/'
    (by decide) (by decide) (by decide) (by decide) (by decide) (by decide)
    (by decide) (by decide) (by decide) (by decide)

/-! ### C1: idempotence of the standard cleaners -/

theorem cleanPhone_idem (x : Str) : cleanPhone (cleanPhone x) = cleanPhone x := by
  unfold cleanPhone
  by_cases hx : x = []
  · simp [hx]
  · rw [if_neg hx]
    by_cases hf : x.filter Char.isDigit = []
    · rw [hf]
      simp
    · rw [if_neg hf, List.filter_filter]
      simp

theorem cleanEmail_idem (x : Str) : cleanEmail (cleanEmail x) = cleanEmail x := by
  by_cases hx : x = []
  · simp [cleanEmail, hx]
  · have ht : cleanEmail x = (x.map Char.toLower).filter (fun c => !c.isWhitespace) := by
      rw [cleanEmail, if_neg hx]
    rw [ht]
    by_cases h2 : (x.map Char.toLower).filter (fun c => !c.isWhitespace) = []
    · rw [h2]
      rfl
    · rw [cleanEmail, if_neg h2]
      have hlow : ∀ c ∈ (x.map Char.toLower).filter (fun c => !c.isWhitespace),
          Char.toLower c = c := by
        intro c hc
        rcases List.mem_map.mp (List.mem_of_mem_filter hc) with ⟨c0, _, rfl⟩
        exact toLower_toLower c0
      rw [List.map_congr_left (g := id) hlow, List.map_id]
      apply List.filter_eq_self.mpr
      intro c hc
      exact (List.mem_filter.mp hc).2

theorem cleanStatus_idem (x : Str) : cleanStatus (cleanStatus x) = cleanStatus x := by
  by_cases hx : x = []
  · simp [cleanStatus, hx]
  · cases hf : VALID_STATUSES.find? (fun v => lowerStr v = lowerStr (trimStr x)) with
    | some v =>
      have hv : cleanStatus x = v := by
        rw [cleanStatus, if_neg hx]
        dsimp only
        rw [hf]
      rw [hv]
      exact valid_statuses_fixed v (List.mem_of_find?_eq_some hf)
    | none =>
      have hv : cleanStatus x = trimStr x := by
        rw [cleanStatus, if_neg hx]
        dsimp only
        rw [hf]
      rw [hv]
      by_cases ht : trimStr x = []
      · rw [cleanStatus, if_pos ht, ht]
      · rw [cleanStatus, if_neg ht]
        dsimp only
        rw [trimStr_idem, hf]

theorem cleanTimeZone_idem (x : Str) : cleanTimeZone (cleanTimeZone x) = cleanTimeZone x := by
  by_cases hx : x = []
  · simp [cleanTimeZone, hx]
  · cases hf1 : VALID_TIME_ZONES.find? (fun v => lowerStr v = lowerStr (trimStr x)) with
    | some v =>
      have hv : cleanTimeZone x = v := by
        rw [cleanTimeZone, if_neg hx]
        dsimp only
        rw [hf1]
      rw [hv]
      exact valid_time_zones_fixed v (List.mem_of_find?_eq_some hf1)
    | none =>
      cases hf2 : TIMEZONE_ALIASES.find? (fun p => p.1 = lowerStr (trimStr x)) with
      | some p =>
        have hv : cleanTimeZone x = p.2 := by
          rw [cleanTimeZone, if_neg hx]
          dsimp only
          rw [hf1]
          dsimp only
          rw [hf2]
        rw [hv]
        exact valid_time_zones_fixed p.2
          (alias_values_valid p (List.mem_of_find?_eq_some hf2))
      | none =>
        cases hf3 : TIMEZONE_ALIASES.find? (fun p =>
            isSubstrOf p.1 (lowerStr (trimStr x)) || isSubstrOf (lowerStr (trimStr x)) p.1) with
        | some p =>
          have hv : cleanTimeZone x = p.2 := by
            rw [cleanTimeZone, if_neg hx]
            dsimp only
            rw [hf1]
            dsimp only
            rw [hf2]
            dsimp only
            rw [hf3]
          rw [hv]
          exact valid_time_zones_fixed p.2
            (alias_values_valid p (List.mem_of_find?_eq_some hf3))
        | none =>
          have hv : cleanTimeZone x = trimStr x := by
            rw [cleanTimeZone, if_neg hx]
            dsimp only
            rw [hf1]
            dsimp only
            rw [hf2]
            dsimp only
            rw [hf3]
          rw [hv]
          by_cases ht : trimStr x = []
          · rw [cleanTimeZone, if_pos ht, ht]
          · rw [cleanTimeZone, if_neg ht]
            dsimp only
            rw [trimStr_idem, hf1]
            dsimp only
            rw [hf2]
            dsimp only
            rw [hf3]

theorem cleanTags_idem (x : Str) : cleanTags (cleanTags x) = cleanTags x := by
  by_cases hx : x = []
  · simp [cleanTags, hx]
  · have ht : cleanTags x =
        joinSep [('|' : Char)] (((x.splitOnP isTagSep).map trimStr).filter (· ≠ [])) := by
      rw [cleanTags, if_neg hx]
    have hne : ∀ w ∈ ((x.splitOnP isTagSep).map trimStr).filter (· ≠ []), w ≠ [] := by
      intro w hw
      simpa using List.of_mem_filter hw
    have htrimmed : ∀ w ∈ ((x.splitOnP isTagSep).map trimStr).filter (· ≠ []),
        trimStr w = w := by
      intro w hw
      rcases List.mem_map.mp (List.mem_of_mem_filter hw) with ⟨w0, _, rfl⟩
      exact trimStr_idem w0
    have hfree : ∀ w ∈ ((x.splitOnP isTagSep).map trimStr).filter (· ≠ []),
        ∀ c ∈ w, isTagSep c = false := by
      intro w hw c hc
      rcases List.mem_map.mp (List.mem_of_mem_filter hw) with ⟨w0, hw0, rfl⟩
      exact not_p_of_mem_splitOnP w0 hw0 c (mem_trimStr hc)
    rw [ht]
    by_cases hP : ((x.splitOnP isTagSep).map trimStr).filter (· ≠ []) = []
    · rw [hP]
      rfl
    · have htne : joinSep [('|' : Char)]
          (((x.splitOnP isTagSep).map trimStr).filter (· ≠ [])) ≠ [] :=
        joinSep_ne_nil hP hne
      rw [cleanTags, if_neg htne]
      rw [splitOnP_joinSep (by rfl) _ hP hfree]
      rw [List.map_congr_left (g := id) htrimmed, List.map_id]
      rw [List.filter_eq_self.mpr (fun w hw => by simpa using hne w hw)]

theorem joinSep_eq_intercalate (sep : Str) :
    ∀ L : List Str, joinSep sep L = List.intercalate sep L := by
  intro L
  induction L with
  | nil => simp [joinSep, List.intercalate]
  | cons w ws ih =>
    cases ws with
    | nil => simp [joinSep, List.intercalate]
    | cons w' rest =>
      rw [joinSep, ih]
      simp only [List.intercalate, List.intersperse_cons_cons, List.flatten]
      rw [List.append_assoc]

theorem map_joinSep (f : Char → Char) (sep : Str) :
    ∀ L : List Str, (joinSep sep L).map f = joinSep (sep.map f) (L.map (List.map f)) := by
  intro L
  induction L with
  | nil => rfl
  | cons w ws ih =>
    cases ws with
    | nil => rfl
    | cons w' rest =>
      show (w ++ sep ++ joinSep sep (w' :: rest)).map f = _
      rw [List.map_append, List.map_append, ih]
      rfl

theorem lowerStr_toProperCase (s : Str) : lowerStr (toProperCase s) = lowerStr s := by
  by_cases hx : s = []
  · rw [hx]
    rfl
  · rw [toProperCase, if_neg hx]
    unfold lowerStr
    rw [map_joinSep]
    have hsep : ([' '] : Str).map Char.toLower = [' '] := by decide
    rw [hsep, List.map_map]
    have hpt : ∀ w ∈ (s.map Char.toLower).splitOnP (· == ' '),
        (List.map Char.toLower ∘ capitalizeWord) w = w := by
      intro w hw
      have hlowc : ∀ c ∈ w, ∃ c0, c = Char.toLower c0 := by
        intro c hc
        have := mem_of_mem_splitOnP w hw c hc
        rcases List.mem_map.mp this with ⟨c0, _, h⟩
        exact ⟨c0, h.symm⟩
      cases w with
      | nil => rfl
      | cons c cs =>
        have hc0 := hlowc c (List.mem_cons_self c cs)
        have hcs : ∀ d ∈ cs, Char.toLower d = id d := by
          intro d hd
          rcases hlowc d (List.mem_cons_of_mem c hd) with ⟨d0, rfl⟩
          exact toLower_toLower d0
        show Char.toLower (Char.toUpper c) :: cs.map Char.toLower = c :: cs
        rw [List.map_congr_left hcs, List.map_id]
        rcases hc0 with ⟨c0, rfl⟩
        rw [toLower_toUpper_toLower]
    rw [List.map_congr_left (g := id) hpt, List.map_id]
    rw [joinSep_eq_intercalate]
    exact List.intercalate_splitOn (s.map Char.toLower) ' '

theorem toProperCase_idem (x : Str) : toProperCase (toProperCase x) = toProperCase x := by
  by_cases hx : x = []
  · rw [hx]
    rfl
  · have hne : toProperCase x ≠ [] := by
      intro h
      have := lowerStr_toProperCase x
      rw [h] at this
      have : lowerStr x = [] := this.symm
      exact hx (by simpa [lowerStr] using this)
    rw [toProperCase, if_neg hne]
    conv_rhs => rw [toProperCase, if_neg hx]
    rw [show (toProperCase x).map Char.toLower = lowerStr (toProperCase x) from rfl,
      lowerStr_toProperCase x]
    rfl

/-- C1: the claim that every standard cleaner is idempotent fails for the
birthday cleaner: the ISO-format input `1990/13/05` (month 13, day 5 — never
range-checked) renders to `13/05/1990`, which on a second cleaning is
re-parsed by the day-first disambiguation rule and swapped to `05/13/1990`. -/
theorem cleanBirthday_not_idempotent :
    cleanBirthday (cleanBirthday (strL "1990/13/05")) ≠ cleanBirthday (strL "1990/13/05") := by
  decide

/-- C1 (amended): the email, phone, proper-case name, status, tags and time
zone cleaners are all idempotent — `clean (clean x) = clean x` for every
string `x`; the birthday cleaner is excluded because re-parsing a rendered
date with month > 12 and day ≤ 12 swaps the two components. -/
theorem cleaners_idempotent :
    (∀ x : Str, cleanEmail (cleanEmail x) = cleanEmail x) ∧
    (∀ x : Str, cleanPhone (cleanPhone x) = cleanPhone x) ∧
    (∀ x : Str, toProperCase (toProperCase x) = toProperCase x) ∧
    (∀ x : Str, cleanStatus (cleanStatus x) = cleanStatus x) ∧
    (∀ x : Str, cleanTags (cleanTags x) = cleanTags x) ∧
    (∀ x : Str, cleanTimeZone (cleanTimeZone x) = cleanTimeZone x) :=
  ⟨cleanEmail_idem, cleanPhone_idem, toProperCase_idem, cleanStatus_idem,
    cleanTags_idem, cleanTimeZone_idem⟩

/-! ### C3: row update lemmas and the parse/render round trip -/

theorem getVal_map_upd (k v : Str) :
    ∀ r : Row, getVal (r.map (fun p => if p.1 = k then (k, v) else p)) k =
      if r.any (fun p => p.1 = k) then v else [] := by
  intro r
  induction r with
  | nil => rfl
  | cons p rest ih =>
    by_cases hp : p.1 = k
    · rw [List.map_cons, if_pos hp, getVal, List.find?_cons_of_pos _ (by simp)]
      rw [show (p :: rest).any (fun p => p.1 = k) = true from by simp [List.any_cons, hp]]
      rfl
    · rw [List.map_cons, if_neg hp, getVal, List.find?_cons_of_neg _ (by simp [hp])]
      rw [show ((p :: rest).any fun p => p.1 = k) = (rest.any fun p => p.1 = k) from by
        simp [List.any_cons, hp]]
      exact ih

theorem getVal_setVal (r : Row) (k v : Str) : getVal (setVal r k v) k = v := by
  unfold setVal
  by_cases hany : r.any (fun p => p.1 = k) = true
  · rw [if_pos hany, getVal_map_upd, if_pos hany]
  · rw [if_neg hany, getVal, List.find?_append]
    have hnone : r.find? (fun p => p.1 = k) = none := by
      rw [List.find?_eq_none]
      intro x hx hp
      exact hany (List.any_eq_true.mpr ⟨x, hx, hp⟩)
    rw [hnone, Option.none_or, List.find?_cons_of_pos _ (by simp)]

theorem any_key_map_upd (k v : Str) (r : Row) :
    ((r.map (fun p => if p.1 = k then (k, v) else p)).any (fun p => p.1 = k))
      = (r.any (fun p => p.1 = k)) := by
  induction r with
  | nil => rfl
  | cons p rest ih =>
    by_cases hp : p.1 = k
    · simp [List.any_cons, hp, ih]
    · simp [List.any_cons, hp, ih]

theorem map_upd_upd (k v v' : Str) (r : Row) :
    ((r.map (fun p => if p.1 = k then (k, v) else p)).map
      (fun p => if p.1 = k then (k, v') else p))
      = r.map (fun p => if p.1 = k then (k, v') else p) := by
  rw [List.map_map]
  apply List.map_congr_left
  intro p _
  by_cases hp : p.1 = k
  · simp [hp]
  · simp [hp]

theorem map_upd_id (k v : Str) (r : Row) (h : ¬r.any (fun p => p.1 = k) = true) :
    r.map (fun p => if p.1 = k then (k, v) else p) = r := by
  have hpt : ∀ p ∈ r, (if p.1 = k then (k, v) else p) = id p := by
    intro p hp
    rw [if_neg (fun hpk => h (List.any_eq_true.mpr ⟨p, hp, by simpa using hpk⟩))]
    rfl
  rw [List.map_congr_left hpt, List.map_id]

theorem setVal_setVal (r : Row) (k v v' : Str) :
    setVal (setVal r k v) k v' = setVal r k v' := by
  by_cases hany : r.any (fun p => p.1 = k) = true
  · have h1 : setVal r k v = r.map (fun p => if p.1 = k then (k, v) else p) := by
      rw [setVal, if_pos hany]
    have h3 : setVal r k v' = r.map (fun p => if p.1 = k then (k, v') else p) := by
      rw [setVal, if_pos hany]
    rw [h1, setVal, if_pos (by rw [any_key_map_upd]; exact hany), map_upd_upd, h3]
  · have h1 : setVal r k v = r ++ [(k, v)] := by
      rw [setVal, if_neg hany]
    have h3 : setVal r k v' = r ++ [(k, v')] := by
      rw [setVal, if_neg hany]
    have hany2 : ((r ++ [(k, v)]).any (fun p => p.1 = k)) = true := by
      simp [List.any_append]
    rw [h1, setVal, if_pos hany2, List.map_append, map_upd_id k v' r hany, h3]
    congr 1
    simp

theorem matchISO_some {s y m d : Str} (h : matchISO s = some (y, m, d)) :
    (∀ c ∈ y, c.isDigit = true) ∧ y.length = 4 ∧
    (∀ c ∈ m, c.isDigit = true) ∧ 1 ≤ m.length ∧ m.length ≤ 2 ∧
    (∀ c ∈ d, c.isDigit = true) ∧ 1 ≤ d.length ∧ d.length ≤ 2 := by
  simp only [matchISO] at h
  split at h <;> [skip; simp at h]
  split at h <;> [skip; simp at h]
  split at h <;> [skip; simp at h]
  split at h <;> [skip; simp at h]
  split at h <;> [skip; simp at h]
  simp at h
  obtain ⟨hdlen, hy, hm, hd⟩ := h
  subst hy
  subst hm
  subst hd
  refine ⟨fun c hc => List.mem_takeWhile_imp hc, ?_, fun c hc => List.mem_takeWhile_imp hc,
    ?_, ?_, fun c hc => List.mem_takeWhile_imp hc, ?_, ?_⟩ <;>
    simp only [Bool.and_eq_true, decide_eq_true_eq] at * <;> omega

theorem matchSlash_some {s a b y : Str} (h : matchSlash s = some (a, b, y)) :
    (∀ c ∈ a, c.isDigit = true) ∧ 1 ≤ a.length ∧ a.length ≤ 2 ∧
    (∀ c ∈ b, c.isDigit = true) ∧ 1 ≤ b.length ∧ b.length ≤ 2 ∧
    (∀ c ∈ y, c.isDigit = true) ∧ y.length = 4 := by
  simp only [matchSlash] at h
  split at h <;> [skip; simp at h]
  split at h <;> [skip; simp at h]
  split at h <;> [skip; simp at h]
  split at h <;> [skip; simp at h]
  split at h <;> [skip; simp at h]
  simp at h
  obtain ⟨hylen, ha, hb, hy⟩ := h
  subst ha
  subst hb
  subst hy
  refine ⟨fun c hc => List.mem_takeWhile_imp hc, ?_, ?_, fun c hc => List.mem_takeWhile_imp hc,
    ?_, ?_, fun c hc => List.mem_takeWhile_imp hc, ?_⟩ <;>
    simp only [Bool.and_eq_true, decide_eq_true_eq] at * <;> omega

theorem matchText1_some {s mt d y : Str} (h : matchText1 s = some (mt, d, y)) :
    (∀ c ∈ d, c.isDigit = true) ∧ 1 ≤ d.length ∧ d.length ≤ 2 ∧
    (∀ c ∈ y, c.isDigit = true) ∧ y.length = 4 := by
  simp only [matchText1] at h
  split at h <;> [skip; simp at h]
  simp at h
  obtain ⟨hcond, hmt, hd, hy⟩ := h
  subst hd
  subst hy
  refine ⟨fun c hc => List.mem_takeWhile_imp hc, ?_, ?_,
    fun c hc => List.mem_takeWhile_imp hc, ?_⟩ <;> omega

theorem matchText2_some {s d mt y : Str} (h : matchText2 s = some (d, mt, y)) :
    (∀ c ∈ d, c.isDigit = true) ∧ 1 ≤ d.length ∧ d.length ≤ 2 ∧
    (∀ c ∈ y, c.isDigit = true) ∧ y.length = 4 := by
  simp only [matchText2] at h
  split at h <;> [skip; simp at h]
  simp at h
  obtain ⟨hcond, hd, hmt, hy⟩ := h
  subst hd
  subst hy
  refine ⟨fun c hc => List.mem_takeWhile_imp hc, ?_, ?_,
    fun c hc => List.mem_takeWhile_imp hc, ?_⟩ <;> omega

theorem month_values_wf :
    ∀ q ∈ MONTH_NAMES, (∀ c ∈ q.2, c.isDigit = true) ∧ q.2.length = 2 := by decide

theorem pad2_digits {w : Str} (h : ∀ c ∈ w, c.isDigit = true) :
    ∀ c ∈ pad2 w, c.isDigit = true := by
  intro c hc
  rw [pad2] at hc
  rcases List.mem_append.mp hc with h1 | h1
  · rw [List.eq_of_mem_replicate h1]
    rfl
  · exact h c h1

theorem pad2_length {w : Str} (h1 : 1 ≤ w.length) (h2 : w.length ≤ 2) :
    (pad2 w).length = 2 := by
  simp only [pad2, List.length_append, List.length_replicate]
  omega

theorem pad2_eq_self {w : Str} (h : w.length = 2) : pad2 w = w := by
  simp [pad2, h]

theorem parseBirthday_wf {b : Str} {p : DateParts} (h : parseBirthday b = some p) :
    (∀ c ∈ p.month, c.isDigit = true) ∧ p.month.length = 2 ∧
    (∀ c ∈ p.day, c.isDigit = true) ∧ p.day.length = 2 ∧
    (∀ c ∈ p.year, c.isDigit = true) ∧ p.year.length = 4 := by
  simp only [parseBirthday] at h
  split at h <;> [simp at h; skip]
  split at h
  next y m d heq =>
    simp only [Option.some.injEq] at h
    subst h
    obtain ⟨h1, h2, h3, h4, h5, h6, h7, h8⟩ := matchISO_some heq
    exact ⟨pad2_digits h3, pad2_length h4 h5, pad2_digits h6, pad2_length h7 h8, h1, h2⟩
  next heq0 =>
    split at h
    next a2 b2 y2 heq1 =>
      obtain ⟨g1, g2, g3, g4, g5, g6, g7, g8⟩ := matchSlash_some heq1
      split at h
      next hcond1 =>
        simp only [Option.some.injEq] at h
        subst h
        exact ⟨pad2_digits g4, pad2_length g5 g6, pad2_digits g1, pad2_length g2 g3, g7, g8⟩
      next hcond1 =>
        split at h
        next hcond2 =>
          simp only [Option.some.injEq] at h
          subst h
          exact ⟨pad2_digits g1, pad2_length g2 g3, pad2_digits g4, pad2_length g5 g6, g7, g8⟩
        next hcond2 =>
          simp only [Option.some.injEq] at h
          subst h
          exact ⟨pad2_digits g1, pad2_length g2 g3, pad2_digits g4, pad2_length g5 g6, g7, g8⟩
    next heq1 =>
      split at h
      next mt d3 y3 heq2 =>
        obtain ⟨t1, t2, t3, t4, t5⟩ := matchText1_some heq2
        split at h
        next q heqf =>
          simp only [Option.some.injEq] at h
          subst h
          have hq := month_values_wf q (List.mem_of_find?_eq_some heqf)
          exact ⟨hq.1, hq.2, pad2_digits t1, pad2_length t2 t3, t4, t5⟩
        next heqf =>
          split at h
          next d4 mt4 y4 heq3 =>
            obtain ⟨u1, u2, u3, u4, u5⟩ := matchText2_some heq3
            split at h
            next q heqf2 =>
              simp only [Option.some.injEq] at h
              subst h
              have hq := month_values_wf q (List.mem_of_find?_eq_some heqf2)
              exact ⟨hq.1, hq.2, pad2_digits u1, pad2_length u2 u3, u4, u5⟩
            next heqf2 => simp at h
          next heq3 => simp at h
      next heq2 =>
        split at h
        next d4 mt4 y4 heq3 =>
          obtain ⟨u1, u2, u3, u4, u5⟩ := matchText2_some heq3
          split at h
          next q heqf2 =>
            simp only [Option.some.injEq] at h
            subst h
            have hq := month_values_wf q (List.mem_of_find?_eq_some heqf2)
            exact ⟨hq.1, hq.2, pad2_digits u1, pad2_length u2 u3, u4, u5⟩
          next heqf2 => simp at h
        next heq3 => simp at h

theorem format_YMD_eq (p : DateParts) :
    formatBirthdayToTarget p BirthdayFormat.YMD
      = p.year ++ '/' :: (p.month ++ '/' :: p.day) := by
  rw [formatBirthdayToTarget]
  simp

theorem format_YMD_not_ws {p : DateParts}
    (hm : ∀ c ∈ p.month, c.isDigit = true) (hd : ∀ c ∈ p.day, c.isDigit = true)
    (hy : ∀ c ∈ p.year, c.isDigit = true) :
    ∀ c ∈ formatBirthdayToTarget p BirthdayFormat.YMD, c.isWhitespace = false := by
  intro c hc
  rw [format_YMD_eq] at hc
  rcases List.mem_append.mp hc with h1 | h1
  · exact digit_not_ws c (hy c h1)
  · rcases List.mem_cons.mp h1 with h2 | h2
    · subst h2
      rfl
    · rcases List.mem_append.mp h2 with h3 | h3
      · exact digit_not_ws c (hm c h3)
      · rcases List.mem_cons.mp h3 with h4 | h4
        · subst h4
          rfl
        · exact digit_not_ws c (hd c h4)

theorem parse_format_YMD {p : DateParts}
    (hm : (∀ c ∈ p.month, c.isDigit = true) ∧ p.month.length = 2)
    (hd : (∀ c ∈ p.day, c.isDigit = true) ∧ p.day.length = 2)
    (hy : (∀ c ∈ p.year, c.isDigit = true) ∧ p.year.length = 4) :
    parseBirthday (formatBirthdayToTarget p BirthdayFormat.YMD) = some p := by
  have hne : formatBirthdayToTarget p .YMD ≠ [] := by
    intro hcontra
    rw [format_YMD_eq] at hcontra
    simp at hcontra
  have htrim : trimStr (formatBirthdayToTarget p .YMD) = formatBirthdayToTarget p .YMD :=
    trimStr_eq_self (format_YMD_not_ws hm.1 hd.1 hy.1)
  have hsplit1 := run_split hy.1 (show ('/' : Char).isDigit = false from rfl)
    (p.month ++ '/' :: p.day)
  have hsplit2 := run_split hm.1 (show ('/' : Char).isDigit = false from rfl) p.day
  have hrun3 := run_all hd.1
  have hiso : matchISO (formatBirthdayToTarget p .YMD) = some (p.year, p.month, p.day) := by
    rw [format_YMD_eq]
    rw [matchISO]
    rw [hsplit1.1, hsplit1.2]
    dsimp only
    rw [if_pos (by simp [hy.2]; rfl)]
    rw [hsplit2.1, hsplit2.2]
    dsimp only
    rw [if_pos (by simp [hm.2]; rfl)]
    rw [hrun3.1, hrun3.2]
    dsimp only
    rw [if_pos (by simp [hd.2])]
  rw [parseBirthday, if_neg hne, htrim]
  try dsimp only
  rw [hiso]
  try dsimp only
  rw [pad2_eq_self hm.2, pad2_eq_self hd.2]

theorem reformatRow_parse_none {format : BirthdayFormat} {row : Row}
    (h : parseBirthday (getVal row (strL "Birthday")) = none) :
    reformatRow format row = row := by
  rw [reformatRow]
  by_cases hb : getVal row (strL "Birthday") = []
  · rw [if_pos hb]
  · rw [if_neg hb]
    try dsimp only
    rw [h]

theorem reformatRow_YMD_idem (row : Row) :
    reformatRow BirthdayFormat.YMD (reformatRow BirthdayFormat.YMD row)
      = reformatRow BirthdayFormat.YMD row := by
  by_cases hb : getVal row (strL "Birthday") = []
  · have h1 : reformatRow BirthdayFormat.YMD row = row := by
      rw [reformatRow, if_pos hb]
    rw [h1, h1]
  · cases hp : parseBirthday (getVal row (strL "Birthday")) with
    | none =>
      have h1 : reformatRow BirthdayFormat.YMD row = row := reformatRow_parse_none hp
      rw [h1, h1]
    | some p =>
      obtain ⟨w1, w2, w3, w4, w5, w6⟩ := parseBirthday_wf hp
      have h1 : reformatRow BirthdayFormat.YMD row =
          setVal row (strL "Birthday") (formatBirthdayToTarget p .YMD) := by
        rw [reformatRow, if_neg hb]
        try dsimp only
        rw [hp]
      rw [h1]
      have hget : getVal (setVal row (strL "Birthday") (formatBirthdayToTarget p .YMD))
          (strL "Birthday") = formatBirthdayToTarget p .YMD :=
        getVal_setVal row (strL "Birthday") (formatBirthdayToTarget p .YMD)
      have hne : formatBirthdayToTarget p .YMD ≠ [] := by
        intro hcontra
        rw [format_YMD_eq] at hcontra
        simp at hcontra
      rw [reformatRow, hget, if_neg hne]
      try dsimp only
      rw [parse_format_YMD ⟨w1, w2⟩ ⟨w3, w4⟩ ⟨w5, w6⟩]
      exact setVal_setVal row (strL "Birthday") _ _

/-- C3: the claim fails for both slash target formats, by different
mechanisms.  DD/MM/YYYY: `05/06/1990` parses (MM/DD default) to month 05 day
06, renders as `06/05/1990`, and a second application re-parses that as month
06 day 05 and renders `05/06/1990` again.  MM/DD/YYYY: `1990/13/05` parses
via the ISO rule to month 13 day 05 (no range check), renders as
`13/05/1990`, and the second application's slash parse sees first component
13 > 12 with second ≤ 12, swaps to month 05 day 13, and renders
`05/13/1990`.  In both cases applying the operation twice differs from
applying it once on a row that parsed successfully. -/
theorem reformatBirthdays_not_idempotent :
    (reformatBirthdays (reformatBirthdays [[(strL "Birthday", strL "05/06/1990")]]
        BirthdayFormat.DMY) BirthdayFormat.DMY ≠
      reformatBirthdays [[(strL "Birthday", strL "05/06/1990")]] BirthdayFormat.DMY) ∧
    (reformatBirthdays (reformatBirthdays [[(strL "Birthday", strL "1990/13/05")]]
        BirthdayFormat.MDY) BirthdayFormat.MDY ≠
      reformatBirthdays [[(strL "Birthday", strL "1990/13/05")]] BirthdayFormat.MDY) := by
  constructor
  · decide
  · decide

/-- C3 (amended): `reformatBirthdays` maps every row through `reformatRow`;
rows whose Birthday fails to parse are passed through unchanged (not cleared,
not errored) for every target format, and for the format YYYY/MM/DD the
operation is idempotent.  For the other two fixed targets idempotence fails
on rows that parse successfully: under DD/MM/YYYY a slash date with both
leading components ≤ 12 is re-parsed as MM/DD and swapped back, and under
MM/DD/YYYY an ISO date with month component > 12 is rendered verbatim and
then month/day-swapped by the second pass (see the counterexample for
both). -/
theorem reformatBirthdays_spec :
    (∀ rows : List Row,
      reformatBirthdays (reformatBirthdays rows BirthdayFormat.YMD) BirthdayFormat.YMD
        = reformatBirthdays rows BirthdayFormat.YMD) ∧
    (∀ (format : BirthdayFormat) (rows : List Row),
      reformatBirthdays rows format = rows.map (reformatRow format)) ∧
    (∀ (format : BirthdayFormat) (row : Row),
      parseBirthday (getVal row (strL "Birthday")) = none → reformatRow format row = row) := by
  refine ⟨?_, fun _ _ => rfl, fun _ _ h => reformatRow_parse_none h⟩
  intro rows
  have hdef : ∀ (rs : List Row) (f : BirthdayFormat),
      reformatBirthdays rs f = rs.map (reformatRow f) := fun _ _ => rfl
  rw [hdef]
  rw [hdef]
  rw [List.map_map]
  apply List.map_congr_left
  intro row _
  exact reformatRow_YMD_idem row

/-- C3 witness: a YMD reformat applied twice to a concrete row equals one
application, and an unparseable birthday row passes through unchanged. -/
theorem reformatBirthdays_spec_witness :
    reformatBirthdays (reformatBirthdays [[(strL "Birthday", strL "1990/13/05")]]
        BirthdayFormat.YMD) BirthdayFormat.YMD
      = reformatBirthdays [[(strL "Birthday", strL "1990/13/05")]] BirthdayFormat.YMD ∧
    reformatRow BirthdayFormat.MDY [(strL "Birthday", strL "not a date")]
      = [(strL "Birthday", strL "not a date")] :=
  ⟨reformatBirthdays_spec.1 [[(strL "Birthday", strL "1990/13/05")]],
    reformatBirthdays_spec.2.2 BirthdayFormat.MDY [(strL "Birthday", strL "not a date")]
      (by decide)⟩

/-! ### C6: per-cell statistics accounting -/

theorem bumpFieldStat_totalCellsModified (s : CleaningStats) (t : Str) :
    (bumpFieldStat s t).totalCellsModified = s.totalCellsModified := by
  unfold bumpFieldStat
  repeat' split
  all_goals rfl

theorem bumpFieldStat_emptyValuesCleared (s : CleaningStats) (t : Str) :
    (bumpFieldStat s t).emptyValuesCleared = s.emptyValuesCleared := by
  unfold bumpFieldStat
  repeat' split
  all_goals rfl

theorem cleanCell_flag (v : Str) (t : Str) (htne : t ≠ []) :
    (cleanCell v (some t)).2 = true ↔ (cleanCell v (some t)).1 ≠ trimStr v := by
  rw [cleanCell]
  by_cases he : isEmptyValue v = true
  · rw [if_pos he]
    constructor
    · intro h
      have := of_decide_eq_true h
      exact fun h2 => this h2.symm
    · intro h
      exact decide_eq_true (fun h2 => h h2.symm)
  · rw [if_neg he]
    dsimp only
    rw [if_neg htne]
    simp


theorem applyMapping_totalCells (raw : Row) (acc : Row × CleaningStats) (m : HeaderMapping)
    (t : Str) (ht : m.targetHeader = some t) (htne : t ≠ []) (hsne : m.sourceHeader ≠ []) :
    (applyMapping raw acc m).2.totalCellsModified = acc.2.totalCellsModified +
      (if (cleanCell (getVal raw m.sourceHeader) (some t)).2 then 1 else 0) := by
  rw [applyMapping, ht]
  dsimp only
  rw [if_neg (not_or.mpr ⟨htne, hsne⟩)]
  try dsimp only
  by_cases hmod : (cleanCell (getVal raw m.sourceHeader) (some t)).2 = true
  · simp only [hmod, if_true]
    repeat' split
    all_goals simp [bumpFieldStat_totalCellsModified]
  · simp only [Bool.not_eq_true] at hmod
    simp [hmod]

theorem applyMapping_email (raw : Row) (acc : Row × CleaningStats) (m : HeaderMapping)
    (ht : m.targetHeader = some (strL "Email")) (hsne : m.sourceHeader ≠ []) :
    (applyMapping raw acc m).2.emailsCleaned = acc.2.emailsCleaned +
      (if (cleanCell (getVal raw m.sourceHeader) (some (strL "Email"))).2 then 1 else 0) := by
  rw [applyMapping, ht]
  dsimp only
  rw [if_neg (not_or.mpr ⟨by decide, hsne⟩)]
  try dsimp only
  have hb : ∀ s : CleaningStats, bumpFieldStat s (strL "Email")
      = { s with emailsCleaned := s.emailsCleaned + 1 } := fun s => rfl
  by_cases hmod : (cleanCell (getVal raw m.sourceHeader) (some (strL "Email"))).2 = true
  · simp only [hmod, if_true]
    rw [if_pos (show strL "Email" ∈ TARGET_HEADERS by decide)]
    repeat' split
    all_goals simp [hb]
  · simp only [Bool.not_eq_true] at hmod
    simp [hmod]

theorem applyMapping_phone (raw : Row) (acc : Row × CleaningStats) (m : HeaderMapping)
    (ht : m.targetHeader = some (strL "Phone")) (hsne : m.sourceHeader ≠ []) :
    (applyMapping raw acc m).2.phonesNormalized = acc.2.phonesNormalized +
      (if (cleanCell (getVal raw m.sourceHeader) (some (strL "Phone"))).2 then 1 else 0) := by
  rw [applyMapping, ht]
  dsimp only
  rw [if_neg (not_or.mpr ⟨by decide, hsne⟩)]
  try dsimp only
  have hb : ∀ s : CleaningStats, bumpFieldStat s (strL "Phone")
      = { s with phonesNormalized := s.phonesNormalized + 1 } := fun s => rfl
  by_cases hmod : (cleanCell (getVal raw m.sourceHeader) (some (strL "Phone"))).2 = true
  · simp only [hmod, if_true]
    rw [if_pos (show strL "Phone" ∈ TARGET_HEADERS by decide)]
    repeat' split
    all_goals simp [hb]
  · simp only [Bool.not_eq_true] at hmod
    simp [hmod]

theorem applyMapping_first_name (raw : Row) (acc : Row × CleaningStats) (m : HeaderMapping)
    (ht : m.targetHeader = some (strL "First Name")) (hsne : m.sourceHeader ≠ []) :
    (applyMapping raw acc m).2.namesToProperCase = acc.2.namesToProperCase +
      (if (cleanCell (getVal raw m.sourceHeader) (some (strL "First Name"))).2 then 1 else 0) := by
  rw [applyMapping, ht]
  dsimp only
  rw [if_neg (not_or.mpr ⟨by decide, hsne⟩)]
  try dsimp only
  have hb : ∀ s : CleaningStats, bumpFieldStat s (strL "First Name")
      = { s with namesToProperCase := s.namesToProperCase + 1 } := fun s => rfl
  by_cases hmod : (cleanCell (getVal raw m.sourceHeader) (some (strL "First Name"))).2 = true
  · simp only [hmod, if_true]
    rw [if_pos (show strL "First Name" ∈ TARGET_HEADERS by decide)]
    repeat' split
    all_goals simp [hb]
  · simp only [Bool.not_eq_true] at hmod
    simp [hmod]

theorem applyMapping_last_name (raw : Row) (acc : Row × CleaningStats) (m : HeaderMapping)
    (ht : m.targetHeader = some (strL "Last Name")) (hsne : m.sourceHeader ≠ []) :
    (applyMapping raw acc m).2.namesToProperCase = acc.2.namesToProperCase +
      (if (cleanCell (getVal raw m.sourceHeader) (some (strL "Last Name"))).2 then 1 else 0) := by
  rw [applyMapping, ht]
  dsimp only
  rw [if_neg (not_or.mpr ⟨by decide, hsne⟩)]
  try dsimp only
  have hb : ∀ s : CleaningStats, bumpFieldStat s (strL "Last Name")
      = { s with namesToProperCase := s.namesToProperCase + 1 } := fun s => rfl
  by_cases hmod : (cleanCell (getVal raw m.sourceHeader) (some (strL "Last Name"))).2 = true
  · simp only [hmod, if_true]
    rw [if_pos (show strL "Last Name" ∈ TARGET_HEADERS by decide)]
    repeat' split
    all_goals simp [hb]
  · simp only [Bool.not_eq_true] at hmod
    simp [hmod]

theorem applyMapping_status (raw : Row) (acc : Row × CleaningStats) (m : HeaderMapping)
    (ht : m.targetHeader = some (strL "Status")) (hsne : m.sourceHeader ≠ []) :
    (applyMapping raw acc m).2.statusValidated = acc.2.statusValidated +
      (if (cleanCell (getVal raw m.sourceHeader) (some (strL "Status"))).2 then 1 else 0) := by
  rw [applyMapping, ht]
  dsimp only
  rw [if_neg (not_or.mpr ⟨by decide, hsne⟩)]
  try dsimp only
  have hb : ∀ s : CleaningStats, bumpFieldStat s (strL "Status")
      = { s with statusValidated := s.statusValidated + 1 } := fun s => rfl
  by_cases hmod : (cleanCell (getVal raw m.sourceHeader) (some (strL "Status"))).2 = true
  · simp only [hmod, if_true]
    rw [if_pos (show strL "Status" ∈ TARGET_HEADERS by decide)]
    repeat' split
    all_goals simp [hb]
  · simp only [Bool.not_eq_true] at hmod
    simp [hmod]

theorem applyMapping_time_zone (raw : Row) (acc : Row × CleaningStats) (m : HeaderMapping)
    (ht : m.targetHeader = some (strL "Time Zone")) (hsne : m.sourceHeader ≠ []) :
    (applyMapping raw acc m).2.timeZoneValidated = acc.2.timeZoneValidated +
      (if (cleanCell (getVal raw m.sourceHeader) (some (strL "Time Zone"))).2 then 1 else 0) := by
  rw [applyMapping, ht]
  dsimp only
  rw [if_neg (not_or.mpr ⟨by decide, hsne⟩)]
  try dsimp only
  have hb : ∀ s : CleaningStats, bumpFieldStat s (strL "Time Zone")
      = { s with timeZoneValidated := s.timeZoneValidated + 1 } := fun s => rfl
  by_cases hmod : (cleanCell (getVal raw m.sourceHeader) (some (strL "Time Zone"))).2 = true
  · simp only [hmod, if_true]
    rw [if_pos (show strL "Time Zone" ∈ TARGET_HEADERS by decide)]
    repeat' split
    all_goals simp [hb]
  · simp only [Bool.not_eq_true] at hmod
    simp [hmod]

theorem applyMapping_tags (raw : Row) (acc : Row × CleaningStats) (m : HeaderMapping)
    (ht : m.targetHeader = some (strL "Tags")) (hsne : m.sourceHeader ≠ []) :
    (applyMapping raw acc m).2.tagsFormatted = acc.2.tagsFormatted +
      (if (cleanCell (getVal raw m.sourceHeader) (some (strL "Tags"))).2 then 1 else 0) := by
  rw [applyMapping, ht]
  dsimp only
  rw [if_neg (not_or.mpr ⟨by decide, hsne⟩)]
  try dsimp only
  have hb : ∀ s : CleaningStats, bumpFieldStat s (strL "Tags")
      = { s with tagsFormatted := s.tagsFormatted + 1 } := fun s => rfl
  by_cases hmod : (cleanCell (getVal raw m.sourceHeader) (some (strL "Tags"))).2 = true
  · simp only [hmod, if_true]
    rw [if_pos (show strL "Tags" ∈ TARGET_HEADERS by decide)]
    repeat' split
    all_goals simp [hb]
  · simp only [Bool.not_eq_true] at hmod
    simp [hmod]

theorem applyMapping_birthday (raw : Row) (acc : Row × CleaningStats) (m : HeaderMapping)
    (ht : m.targetHeader = some (strL "Birthday")) (hsne : m.sourceHeader ≠ []) :
    (applyMapping raw acc m).2.birthdayFormatted = acc.2.birthdayFormatted +
      (if (cleanCell (getVal raw m.sourceHeader) (some (strL "Birthday"))).2 then 1 else 0) := by
  rw [applyMapping, ht]
  dsimp only
  rw [if_neg (not_or.mpr ⟨by decide, hsne⟩)]
  try dsimp only
  have hb : ∀ s : CleaningStats, bumpFieldStat s (strL "Birthday")
      = { s with birthdayFormatted := s.birthdayFormatted + 1 } := fun s => rfl
  by_cases hmod : (cleanCell (getVal raw m.sourceHeader) (some (strL "Birthday"))).2 = true
  · simp only [hmod, if_true]
    rw [if_pos (show strL "Birthday" ∈ TARGET_HEADERS by decide)]
    repeat' split
    all_goals simp [hb]
  · simp only [Bool.not_eq_true] at hmod
    simp [hmod]

theorem applyMapping_emptyCleared (raw : Row) (acc : Row × CleaningStats) (m : HeaderMapping)
    (t : Str) (ht : m.targetHeader = some t) (htne : t ≠ []) (hsne : m.sourceHeader ≠ []) :
    (applyMapping raw acc m).2.emptyValuesCleared = acc.2.emptyValuesCleared +
      (if (cleanCell (getVal raw m.sourceHeader) (some t)).2 = true ∧
          (cleanCell (getVal raw m.sourceHeader) (some t)).1 = [] ∧
          getVal raw m.sourceHeader ≠ [] then 1 else 0) := by
  rw [applyMapping, ht]
  dsimp only
  rw [if_neg (not_or.mpr ⟨htne, hsne⟩)]
  try dsimp only
  by_cases hmod : (cleanCell (getVal raw m.sourceHeader) (some t)).2 = true
  · simp only [hmod, if_true, true_and]
    repeat' split
    all_goals simp_all [bumpFieldStat_emptyValuesCleared]
  · simp only [Bool.not_eq_true] at hmod
    simp [hmod]

/-- C6: the claim is false for whitespace-only raw values: `emptyValuesCleared`
is only incremented inside the `wasModified` branch, and a whitespace-only
cell is truthy and cleans to `""` yet its pre-clean trimmed original is
already `""`, so it does not count as modified and the counter stays at 0. -/
theorem processData_whitespace_not_cleared :
    (cleanCell (strL " ") (some (strL "Email"))).1 = [] ∧ strL " " ≠ [] ∧
    (processData [[(strL "S", strL " ")]]
      [{ sourceHeader := strL "S", targetHeader := some (strL "Email"),
         isCustom := false }]).2.emptyValuesCleared = 0 := by
  decide

/-- C6 (amended): for every mapped cell processed by `processData`'s
per-mapping step, the cell counts as modified exactly when the cleaned value
differs from the pre-clean trimmed original; on a modification the matching
per-field counter and `totalCellsModified` are each incremented by one; and
`emptyValuesCleared` is incremented exactly when, in addition to the cell
being modified, the cleaned result is `""` while the raw value was non-empty
(so `"N/A"` counts, but a whitespace-only raw value — truthy and cleaned to
`""` without differing from its trimmed original — does not). -/
theorem processData_cell_stats (raw : Row) (acc : Row × CleaningStats) (m : HeaderMapping)
    (t : Str) (ht : m.targetHeader = some t) (htne : t ≠ []) (hsne : m.sourceHeader ≠ []) :
    ((cleanCell (getVal raw m.sourceHeader) (some t)).2 = true ↔
      (cleanCell (getVal raw m.sourceHeader) (some t)).1 ≠
        trimStr (getVal raw m.sourceHeader)) ∧
    (applyMapping raw acc m).2.totalCellsModified = acc.2.totalCellsModified +
      (if (cleanCell (getVal raw m.sourceHeader) (some t)).2 then 1 else 0) ∧
    (t = strL "Email" → (applyMapping raw acc m).2.emailsCleaned = acc.2.emailsCleaned +
      (if (cleanCell (getVal raw m.sourceHeader) (some t)).2 then 1 else 0)) ∧
    (t = strL "Phone" → (applyMapping raw acc m).2.phonesNormalized = acc.2.phonesNormalized +
      (if (cleanCell (getVal raw m.sourceHeader) (some t)).2 then 1 else 0)) ∧
    (t = strL "First Name" ∨ t = strL "Last Name" →
      (applyMapping raw acc m).2.namesToProperCase = acc.2.namesToProperCase +
        (if (cleanCell (getVal raw m.sourceHeader) (some t)).2 then 1 else 0)) ∧
    (t = strL "Status" → (applyMapping raw acc m).2.statusValidated = acc.2.statusValidated +
      (if (cleanCell (getVal raw m.sourceHeader) (some t)).2 then 1 else 0)) ∧
    (t = strL "Time Zone" → (applyMapping raw acc m).2.timeZoneValidated =
      acc.2.timeZoneValidated +
      (if (cleanCell (getVal raw m.sourceHeader) (some t)).2 then 1 else 0)) ∧
    (t = strL "Tags" → (applyMapping raw acc m).2.tagsFormatted = acc.2.tagsFormatted +
      (if (cleanCell (getVal raw m.sourceHeader) (some t)).2 then 1 else 0)) ∧
    (t = strL "Birthday" → (applyMapping raw acc m).2.birthdayFormatted =
      acc.2.birthdayFormatted +
      (if (cleanCell (getVal raw m.sourceHeader) (some t)).2 then 1 else 0)) ∧
    ((applyMapping raw acc m).2.emptyValuesCleared = acc.2.emptyValuesCleared +
      (if (cleanCell (getVal raw m.sourceHeader) (some t)).2 = true ∧
          (cleanCell (getVal raw m.sourceHeader) (some t)).1 = [] ∧
          getVal raw m.sourceHeader ≠ [] then 1 else 0)) ∧
    (processData [[(strL "S", strL " N/A ")]]
      [{ sourceHeader := strL "S", targetHeader := some (strL "Email"),
         isCustom := false }]).2.emptyValuesCleared = 1 := by
  refine ⟨cleanCell_flag _ t htne, applyMapping_totalCells raw acc m t ht htne hsne,
    ?_, ?_, ?_, ?_, ?_, ?_, ?_,
    applyMapping_emptyCleared raw acc m t ht htne hsne, by decide⟩
  · intro heq
    subst heq
    exact applyMapping_email raw acc m ht hsne
  · intro heq
    subst heq
    exact applyMapping_phone raw acc m ht hsne
  · intro heq
    rcases heq with heq | heq
    · subst heq
      exact applyMapping_first_name raw acc m ht hsne
    · subst heq
      exact applyMapping_last_name raw acc m ht hsne
  · intro heq
    subst heq
    exact applyMapping_status raw acc m ht hsne
  · intro heq
    subst heq
    exact applyMapping_time_zone raw acc m ht hsne
  · intro heq
    subst heq
    exact applyMapping_tags raw acc m ht hsne
  · intro heq
    subst heq
    exact applyMapping_birthday raw acc m ht hsne

/-- C6 witness: on the raw cell `" N/A "` mapped to Email, the cell counts as
modified and the email counter of the step increases by one. -/
theorem processData_cell_stats_witness :
    (applyMapping [(strL "S", strL " N/A ")] ([], initialStats 1)
      { sourceHeader := strL "S", targetHeader := some (strL "Email"),
        isCustom := false }).2.emailsCleaned = (initialStats 1).emailsCleaned + 1 := by
  have h := (processData_cell_stats [(strL "S", strL " N/A ")] ([], initialStats 1)
    { sourceHeader := strL "S", targetHeader := some (strL "Email"), isCustom := false }
    (strL "Email") rfl (by decide) (by decide)).2.2.1 rfl
  rw [h]
  rw [if_pos (by decide)]

/-! ### C5: row and column pruning -/

theorem bumpFieldStat_emptyRowsRemoved (s : CleaningStats) (t : Str) :
    (bumpFieldStat s t).emptyRowsRemoved = s.emptyRowsRemoved := by
  unfold bumpFieldStat
  repeat' split
  all_goals rfl

theorem applyMapping_emptyRows (raw : Row) (acc : Row × CleaningStats) (m : HeaderMapping) :
    (applyMapping raw acc m).2.emptyRowsRemoved = acc.2.emptyRowsRemoved := by
  rw [applyMapping]
  cases m.targetHeader with
  | none => rfl
  | some t =>
    dsimp only
    repeat' split
    all_goals simp [bumpFieldStat_emptyRowsRemoved]

theorem buildRow_emptyRows (headers : List Str) (raw : Row) :
    ∀ (mappings : List HeaderMapping) (acc : Row × CleaningStats),
      (mappings.foldl (applyMapping raw) acc).2.emptyRowsRemoved = acc.2.emptyRowsRemoved := by
  intro mappings
  induction mappings with
  | nil => intro acc; rfl
  | cons m rest ih =>
    intro acc
    rw [List.foldl_cons, ih (applyMapping raw acc m), applyMapping_emptyRows]

theorem buildRows_aux (headers : List Str) (mappings : List HeaderMapping) :
    ∀ (rows : List Row) (acc : List Row × CleaningStats),
      ((rows.foldl (fun acc raw =>
          let r := buildRow headers mappings raw acc.2
          (acc.1 ++ [r.1], r.2)) acc).1.length = acc.1.length + rows.length) ∧
      ((rows.foldl (fun acc raw =>
          let r := buildRow headers mappings raw acc.2
          (acc.1 ++ [r.1], r.2)) acc).2.emptyRowsRemoved = acc.2.emptyRowsRemoved) := by
  intro rows
  induction rows with
  | nil => intro acc; exact ⟨by simp, rfl⟩
  | cons row rest ih =>
    intro acc
    rw [List.foldl_cons]
    constructor
    · rw [(ih _).1]
      simp
      omega
    · rw [(ih _).2]
      dsimp only
      exact buildRow_emptyRows headers row mappings _

/-- C5: with no surviving rows the column accounting diverges from the claim:
dropping the single all-empty row leaves zero surviving rows, so every target
column vacuously has no non-empty value, yet `emptyColumnsRemoved` stays 0
(the code reads the column set off the first surviving row, which does not
exist) instead of counting the 10 dropped standard columns. -/
theorem processData_no_survivors_counterexample :
    (processData [[(strL "S", strL "")]]
      [{ sourceHeader := strL "S", targetHeader := some (strL "Email"),
         isCustom := false }]).1 = [] ∧
    (processData [[(strL "S", strL "")]]
      [{ sourceHeader := strL "S", targetHeader := some (strL "Email"),
         isCustom := false }]).2.emptyRowsRemoved = 1 ∧
    (processData [[(strL "S", strL "")]]
      [{ sourceHeader := strL "S", targetHeader := some (strL "Email"),
         isCustom := false }]).2.emptyColumnsRemoved = 0 := by
  decide

/-- C5 (amended): `processData` drops every row whose values are all
empty/whitespace, incrementing `emptyRowsRemoved` once per dropped row, and
sets `stats.totalRows` to the final surviving row count; every surviving row
keeps a non-empty value, a key appearing in any output row has a non-empty
value in some output row, and a column with no non-empty value among the
surviving rows is absent from every output row.  `emptyColumnsRemoved` counts
the dropped columns off the first surviving row, so it is exact when at least
one row survives and stays 0 when no row does. -/
theorem processData_pruning (rows : List Row) (mappings : List HeaderMapping) :
    (processData rows mappings).2.totalRows = (processData rows mappings).1.length ∧
    rows.length = (processData rows mappings).1.length +
      (processData rows mappings).2.emptyRowsRemoved ∧
    (∀ row ∈ (processData rows mappings).1, ∃ p ∈ row, p.2 ≠ [] ∧ trimStr p.2 ≠ []) ∧
    (∀ row ∈ (processData rows mappings).1, ∀ p ∈ row,
      ∃ row' ∈ (processData rows mappings).1, ∃ q ∈ row',
        q.1 = p.1 ∧ q.2 ≠ [] ∧ trimStr q.2 ≠ []) ∧
    (∀ k : Str, columnHasData ((buildRows (allTargetHeaders mappings) mappings rows
        (initialStats rows.length)).1.filter rowHasData) k = false →
      ∀ row ∈ (processData rows mappings).1, ∀ p ∈ row, p.1 ≠ k) ∧
    ((buildRows (allTargetHeaders mappings) mappings rows
        (initialStats rows.length)).1.filter rowHasData = [] →
      (processData rows mappings).2.emptyColumnsRemoved = 0) ∧
    (∀ (row0 : Row) (rest : List Row),
      (buildRows (allTargetHeaders mappings) mappings rows
        (initialStats rows.length)).1.filter rowHasData = row0 :: rest →
      (processData rows mappings).2.emptyColumnsRemoved =
        ((row0.map (fun p => p.1)).filter (fun c => !columnHasData
          ((buildRows (allTargetHeaders mappings) mappings rows
            (initialStats rows.length)).1.filter rowHasData) c)).length) := by
  have hb := buildRows_aux (allTargetHeaders mappings) mappings rows
    ([], initialStats rows.length)
  refine ⟨rfl, ?_, ?_, ?_, ?_, ?_, ?_⟩
  · have e1 : (processData rows mappings).1.length =
        (((buildRows (allTargetHeaders mappings) mappings rows
          (initialStats rows.length)).1.filter rowHasData).map
          (pruneRow ((buildRows (allTargetHeaders mappings) mappings rows
            (initialStats rows.length)).1.filter rowHasData))).length := rfl
    have e2 : (processData rows mappings).2.emptyRowsRemoved =
        (buildRows (allTargetHeaders mappings) mappings rows
          (initialStats rows.length)).2.emptyRowsRemoved +
        ((buildRows (allTargetHeaders mappings) mappings rows
          (initialStats rows.length)).1.length -
         ((buildRows (allTargetHeaders mappings) mappings rows
          (initialStats rows.length)).1.filter rowHasData).length) := rfl
    have e3 : (buildRows (allTargetHeaders mappings) mappings rows
        (initialStats rows.length)).1.length = 0 + rows.length := hb.1
    have e4 : (buildRows (allTargetHeaders mappings) mappings rows
        (initialStats rows.length)).2.emptyRowsRemoved = 0 := hb.2
    have e5 : ((buildRows (allTargetHeaders mappings) mappings rows
        (initialStats rows.length)).1.filter rowHasData).length ≤
        (buildRows (allTargetHeaders mappings) mappings rows
          (initialStats rows.length)).1.length := List.length_filter_le _ _
    rw [e1, List.length_map] at *
    omega
  · intro row hrow
    rcases List.mem_map.mp hrow with ⟨row0, hrow0, rfl⟩
    rcases List.mem_filter.mp hrow0 with ⟨_, hdata⟩
    rcases List.any_eq_true.mp hdata with ⟨p, hp, hcond⟩
    simp only [Bool.and_eq_true, decide_eq_true_eq] at hcond
    refine ⟨p, ?_, hcond.1, hcond.2⟩
    apply List.mem_filter.mpr
    refine ⟨hp, ?_⟩
    apply List.any_eq_true.mpr
    refine ⟨row0, hrow0, List.any_eq_true.mpr ⟨p, hp, ?_⟩⟩
    simp [hcond.1, hcond.2]
  · intro row hrow p hp
    rcases List.mem_map.mp hrow with ⟨row0, hrow0, rfl⟩
    rcases List.mem_filter.mp hp with ⟨hp0, hcol⟩
    rcases List.any_eq_true.mp hcol with ⟨row1, hrow1, hinner⟩
    rcases List.any_eq_true.mp hinner with ⟨q, hq, hqcond⟩
    simp only [Bool.and_eq_true, decide_eq_true_eq] at hqcond
    refine ⟨pruneRow _ row1, List.mem_map_of_mem _ hrow1, q, ?_,
      hqcond.1.1, hqcond.1.2, hqcond.2⟩
    apply List.mem_filter.mpr
    refine ⟨hq, ?_⟩
    rw [hqcond.1.1]
    exact hcol
  · intro k hk row hrow p hp
    rcases List.mem_map.mp hrow with ⟨row0, _, rfl⟩
    rcases List.mem_filter.mp hp with ⟨_, hcol⟩
    intro heq
    rw [heq] at hcol
    rw [hk] at hcol
    exact absurd hcol (by simp)
  · intro hfe
    have hdef : (processData rows mappings).2.emptyColumnsRemoved =
        ((match (buildRows (allTargetHeaders mappings) mappings rows
            (initialStats rows.length)).1.filter rowHasData with
          | [] => ([] : List Str)
          | row0 :: _ => row0.map (fun p : Str × Str => p.1)).filter
          (fun c => !columnHasData ((buildRows (allTargetHeaders mappings) mappings rows
            (initialStats rows.length)).1.filter rowHasData) c)).length := rfl
    rw [hdef, hfe]
    rfl
  · intro row0 rest hfe
    have hdef : (processData rows mappings).2.emptyColumnsRemoved =
        ((match (buildRows (allTargetHeaders mappings) mappings rows
            (initialStats rows.length)).1.filter rowHasData with
          | [] => ([] : List Str)
          | row0 :: _ => row0.map (fun p : Str × Str => p.1)).filter
          (fun c => !columnHasData ((buildRows (allTargetHeaders mappings) mappings rows
            (initialStats rows.length)).1.filter rowHasData) c)).length := rfl
    rw [hdef, hfe]

/-- Witness for C5: on the one-row all-empty input, the no-survivor conjunct of
`processData_pruning` applies concretely and gives `emptyColumnsRemoved = 0`. -/
theorem processData_pruning_witness :
    (processData [[(strL "S", strL "")]]
      [{ sourceHeader := strL "S", targetHeader := some (strL "Email"),
         isCustom := false }]).2.emptyColumnsRemoved = 0 :=
  (processData_pruning [[(strL "S", strL "")]]
    [{ sourceHeader := strL "S", targetHeader := some (strL "Email"),
       isCustom := false }]).2.2.2.2.2.1 (by decide)
